import Mathlib

/-!
Shallow embedding of the AzureMonitorForSAPSolutions payload engine
(`sapmon/payload`): the HANA provider check (`provider/saphana.py`), the
generic check engine (`provider/base.py`), the Prometheus check
(`provider/prometheus.py`), the Log Analytics sink client
(`helper/azure.py`) and the KeyVault config loader (`helper/config.py`),
together with theorems settling the frozen claims about them.

Python strings are modelled as `List Char` (`PyStr`); Python `datetime`
values as the record `Dt`; heterogeneous result-row values as `Cell`.
Functions that can raise a Python exception return an `Option`, with
`none` standing for the raised exception.
-/

/-- Python strings, modelled as lists of characters so that every string
operation is structurally recursive and kernel-evaluable. -/
abbrev PyStr := List Char

/-- The characters of a Lean string literal, as a `PyStr`. -/
def pstr (s : String) : PyStr := s.data

/-- Python `s.replace(pat, rep, 1)`: replace the first occurrence of `pat`
in `s` by `rep`; `s` unchanged when `pat` does not occur. (For `s = ""`,
Python yields `rep` when `pat = ""` and `""` otherwise.) -/
def replaceFirst (s pat rep : PyStr) : PyStr :=
  match s with
  | [] => if pat = [] then rep else []
  | c :: cs =>
    if pat.isPrefixOf (c :: cs) then rep ++ (c :: cs).drop pat.length
    else c :: replaceFirst cs pat rep

/-- Python `sub in s`: substring containment. -/
def containsSub (sub : PyStr) : PyStr → Bool
  | [] => sub.isEmpty
  | c :: cs => sub.isPrefixOf (c :: cs) || containsSub sub cs

/-- Python `s.lower()` (ASCII is all the sources need). -/
def lowerStr (s : PyStr) : PyStr := s.map Char.toLower

/-- The decimal digit `d` (`0 ≤ d ≤ 9`) as a character. -/
def digitChar (d : Nat) : Char := Char.ofNat (48 + d)

/-- Auxiliary decimal rendering with explicit fuel (structural recursion). -/
def natDecAux : Nat → Nat → PyStr → PyStr
  | 0, _, acc => acc
  | fuel + 1, n, acc =>
    if n < 10 then digitChar n :: acc
    else natDecAux fuel (n / 10) (digitChar (n % 10) :: acc)

/-- Python `"%d" % n` for a non-negative `n`. -/
def natDec (n : Nat) : PyStr := natDecAux (n + 1) n []

/-- Python `"%d" % i` for an arbitrary integer. -/
def intDec : Int → PyStr
  | .ofNat n => natDec n
  | .negSucc n => '-' :: natDec (n + 1)

/-- Zero-pad a decimal rendering to `w` characters (strftime field widths). -/
def padNat (w n : Nat) : PyStr :=
  let d := natDec n
  List.replicate (w - d.length) '0' ++ d

/-- A Python `datetime.datetime` value (naive UTC, as the payload uses it). -/
structure Dt where
  year : Nat
  month : Nat
  day : Nat
  hour : Nat
  minute : Nat
  second : Nat
  microsecond : Nat
deriving DecidableEq, Repr

/-- `TIME_FORMAT_HANA = "%Y-%m-%d %H:%M:%S.%f"` (`const.py`), applied by
`datetime.strftime`. -/
def strftimeHana (d : Dt) : PyStr :=
  padNat 4 d.year ++ pstr "-" ++ padNat 2 d.month ++ pstr "-" ++ padNat 2 d.day
    ++ pstr " " ++ padNat 2 d.hour ++ pstr ":" ++ padNat 2 d.minute ++ pstr ":"
    ++ padNat 2 d.second ++ pstr "." ++ padNat 6 d.microsecond

/-- One value of a query-result row or of a per-check state entry. -/
inductive Cell where
  | s (v : PyStr)
  | t (v : Dt)
  | i (v : Int)
  | b (v : Bool)
  | null
deriving DecidableEq, Repr

/-- Python truthiness of a `Cell`. -/
def cellFalsy : Cell → Bool
  | .s v => v.isEmpty
  | .t _ => false
  | .i v => v == 0
  | .b v => !v
  | .null => true

/-- Python truthiness of `state.get("lastRunServer", None)`: `none` is the
absent key (`None`), `some c` a stored value. -/
def pyFalsy : Option Cell → Bool
  | none => true
  | some c => cellFalsy c

/-! ## `saphanaProviderCheck._prepareSql` (`provider/saphana.py` 194-236)

The source first computes
`preparedSql = sql.replace(" FROM", sqlTimestamp, 1)` and then, in the
time-series branch, assigns `preparedSql = sql.replace("{lastRunServerUtc}",
lastRunServerUtc, 1)` — substituting into the original `sql`, so the
`" FROM"` rewrite is discarded whenever `isTimeSeries` holds. The embedding
reproduces this literally. `none` models a raised/propagated error path
(the source returns Python `None` there, which `_actionExecuteSql` turns
into an exception). -/

/-- `COL_SERVER_UTC`-based timestamp insert text of `_prepareSql`. -/
def sqlTimestampText : PyStr := pstr ", CURRENT_UTCTIMESTAMP AS _SERVER_UTC FROM DUMMY,"

/-- `saphanaProviderCheck._prepareSql`, with `state.get("lastRunServer")`
passed explicitly. -/
def prepareSql (sql : PyStr) (isTimeSeries : Bool) (initialTimespanSecs : Int)
    (lastRunServer : Option Cell) : Option PyStr :=
  let preparedSql := replaceFirst sql (pstr " FROM") sqlTimestampText
  if isTimeSeries then
    if pyFalsy lastRunServer then
      let lastRunServerUtc :=
        pstr "ADD_SECONDS(NOW(), i.VALUE*(-1) - " ++ intDec initialTimespanSecs ++ pstr ")"
      some (replaceFirst sql (pstr "{lastRunServerUtc}") lastRunServerUtc)
    else
      match lastRunServer with
      | some (.t d) =>
        let lastRunServerUtc := pstr "'" ++ strftimeHana d ++ pstr "'"
        some (replaceFirst sql (pstr "{lastRunServerUtc}") lastRunServerUtc)
      | _ => none
  else
    some preparedSql

/-! ## `ProviderCheck.run` (`provider/base.py` 231-244)

The engine iterates over the check's declared actions, calling
`getattr(self, "_action%s" % action["type"])(**parameters)` for each. When a
call returns `False` it only logs "error executing action ..., skipping
remaining actions" — the loop body has no `break` or `return`, so the loop
continues. When a call raises, the exception propagates out of `run`. There
is no retry loop and no sleep anywhere in `run`; the per-action keys
`retries`, `delayInSeconds` and `backoffMultiplier` are never read. -/

/-- What one `_action...` method call does when invoked. `ok` covers a call
returning `None`/`True` (anything but `False`), `returnsFalse` a call
returning `False` (e.g. `sapsqlProviderCheck._actionExecuteSql`), `raises`
a call raising an exception (e.g. `saphanaProviderCheck._actionExecuteSql`
when no connection can be made). -/
inductive ActionBehavior where
  | ok
  | returnsFalse
  | raises
deriving DecidableEq, Repr

/-- One entry of a check's `actions` list, with the retry-policy keys the
content schema allows on an action. -/
structure CheckAction where
  type : PyStr
  behavior : ActionBehavior
  retries : Option Nat := none
  delayInSeconds : Option Nat := none
  backoffMultiplier : Option Nat := none
deriving DecidableEq, Repr

/-- An observable event of one `ProviderCheck.run` invocation: an `_action`
method call, or a sleep of some number of seconds (none are ever emitted by
the source, which contains no sleep). -/
inductive RunEvent where
  | call (methodName : PyStr)
  | wait (seconds : Nat)
deriving DecidableEq, Repr

/-- `METHODNAME_ACTION % action["type"]` (`const.py`). -/
def methodNameOf (a : CheckAction) : PyStr := pstr "_action" ++ a.type

/-- The sequence of events of `ProviderCheck.run` on the given action list:
one method call per action, in declared order; a `False` return only logs
and the loop continues; a raised exception propagates and ends the run. -/
def runEvents : List CheckAction → List RunEvent
  | [] => []
  | a :: rest =>
    match a.behavior with
    | .raises => [.call (methodNameOf a)]
    | _ => .call (methodNameOf a) :: runEvents rest

/-- Whether `run` reaches its final `generateJsonString()` call (no action
raised). -/
def runCompletes : List CheckAction → Bool
  | [] => true
  | a :: rest =>
    match a.behavior with
    | .raises => false
    | _ => runCompletes rest

/-- The prefix of the action list whose methods are actually invoked: every
action up to and including the first raising one. -/
def executedActions : List CheckAction → List CheckAction
  | [] => []
  | a :: rest =>
    match a.behavior with
    | .raises => [a]
    | _ => a :: executedActions rest

/-! ## `ProviderInstance.readState` / `writeState` (`provider/base.py` 89-157)

State-file handling for the per-check states. The state file's JSON is
`{"global": ..., "checks": {name: state, ...}}`; `readState` replaces each
check's in-memory state with the persisted one — except that it first saves
the in-memory `isEnabled` (into a variable initialised once, before the
loop over checks) and writes that saved value back over the freshly loaded
state. A check's state is modelled as its `isEnabled` entry (absent or a
Bool) plus the remaining entries, kept abstract as `rest`. -/

/-- The per-check state dictionary: the `isEnabled` key (`none` = key
absent) and everything else. -/
structure CheckStateDict where
  isEnabled : Option Bool
  rest : List (PyStr × Cell)
deriving DecidableEq, Repr

/-- `{}`: the state a check gets when the state file has no entry for it. -/
def emptyCheckStateDict : CheckStateDict := ⟨none, []⟩

/-- One in-memory check object, as far as state handling sees it. -/
structure CheckObj where
  name : PyStr
  state : CheckStateDict
deriving DecidableEq, Repr

/-- A freshly constructed check (`ProviderCheck.__init__`): its state is
`{"isEnabled": enabled, "lastRunLocal": None}`, with `enabled` the content
catalogue's flag (default `True`). -/
def newCheckObj (name : PyStr) (enabled : Bool) : CheckObj :=
  ⟨name, ⟨some enabled, [(pstr "lastRunLocal", Cell.null)]⟩⟩

/-- The loop of `readState` over `self.checks` (lines 117-124), with
`saveIsEnabled` threaded exactly as in the source: initialised to `None`
once, updated whenever a check's in-memory state has an `isEnabled` key,
and written over the state just loaded from the file whenever it is not
`None`. -/
def readStateLoop (checkStates : List (PyStr × CheckStateDict)) :
    Option Bool → List CheckObj → List CheckObj
  | _, [] => []
  | saveIsEnabled, c :: cs =>
    let saveIsEnabled' :=
      match c.state.isEnabled with
      | some b => some b
      | none => saveIsEnabled
    let loaded := (checkStates.lookup c.name).getD emptyCheckStateDict
    let newState :=
      match saveIsEnabled' with
      | some b => { loaded with isEnabled := some b }
      | none => loaded
    ⟨c.name, newState⟩ :: readStateLoop checkStates saveIsEnabled' cs

/-- `ProviderInstance.readState`, restricted to its effect on the per-check
states (the `"checks"` section of the parsed state file is passed in). -/
def readStateChecks (checkStates : List (PyStr × CheckStateDict))
    (checks : List CheckObj) : List CheckObj :=
  readStateLoop checkStates none checks

/-- `ProviderInstance.writeState`, restricted to the `"checks"` section it
persists: `{check.name: check.state for check in self.checks}`. -/
def writeStateChecks (checks : List CheckObj) : List (PyStr × CheckStateDict) :=
  checks.map fun c => (c.name, c.state)

/-! ## `saphanaProviderCheck.updateState` (`provider/saphana.py` 290-310)

`lastResult` is the pair `(colIndex, resultRows)` where `colIndex` maps a
column name to its index (a Python dict in insertion order) and
`resultRows` is the fetched row list. `updateState` stores `lastRunLocal`
(first row's `_LOCAL_UTC` when that column is indexed, else
`datetime.utcnow()`), on a non-empty result `lastRunServer` (last row's
`_TIMESERIES_UTC` when indexed, else first row's `_SERVER_UTC` when
indexed), and `lastResultHash` (the MD5 of `str(resultRows)`; the digest
function itself is irrelevant to every claim, so the state keeps the hashed
row list instead of its MD5 text). `none` models a raised `IndexError`
(e.g. `resultRows[0]` on an empty list). -/

/-- A column-name-to-index dictionary, in insertion order. -/
abbrev ColIndex := List (PyStr × Nat)

/-- The HANA check state fields `updateState` writes. -/
structure HanaCheckState where
  lastRunLocal : Option Cell
  lastRunServer : Option Cell
  lastResultHash : Option (List (List Cell))
deriving DecidableEq, Repr

/-- `saphanaProviderCheck._calculateResultHash`: `None` on an empty result,
else the MD5 of `str(resultRows)` — modelled by the hashed rows themselves
(no claim depends on the digest's text). -/
def calculateResultHash (resultRows : List (List Cell)) : Option (List (List Cell)) :=
  if resultRows.length = 0 then none else some resultRows

/-- The `lastRunLocal` value `updateState` stores: the first row's
`_LOCAL_UTC` when that column is indexed (`none` = the `IndexError` raised
by `resultRows[0]` on an empty result), else `datetime.utcnow()`. -/
def localUtcValue (colIndex : ColIndex) (resultRows : List (List Cell))
    (nowUtc : Dt) : Option Cell :=
  match colIndex.lookup (pstr "_LOCAL_UTC") with
  | some idx => resultRows.head?.bind fun r0 => r0.get? idx
  | none => some (Cell.t nowUtc)

/-- The `lastRunServer` store of `updateState`: only on a non-empty result,
from the last row's `_TIMESERIES_UTC` when indexed, else from the first
row's `_SERVER_UTC` when indexed. -/
def serverUtcUpdate (colIndex : ColIndex) (resultRows : List (List Cell))
    (st1 : HanaCheckState) : Option HanaCheckState :=
  if resultRows.length > 0 then
    match colIndex.lookup (pstr "_TIMESERIES_UTC") with
    | some idx =>
      (resultRows.getLast?.bind fun rl => rl.get? idx).map fun v =>
        { st1 with lastRunServer := some v }
    | none =>
      match colIndex.lookup (pstr "_SERVER_UTC") with
      | some idx =>
        (resultRows.head?.bind fun r0 => r0.get? idx).map fun v =>
          { st1 with lastRunServer := some v }
      | none => some st1
  else some st1

/-- `saphanaProviderCheck.updateState`, with `datetime.utcnow()` passed in
as `nowUtc`. -/
def updateState (colIndex : ColIndex) (resultRows : List (List Cell))
    (nowUtc : Dt) (st : HanaCheckState) : Option HanaCheckState :=
  (localUtcValue colIndex resultRows nowUtc).bind fun lrl =>
    (serverUtcUpdate colIndex resultRows { st with lastRunLocal := some lrl }).map fun st2 =>
      { st2 with lastResultHash := calculateResultHash resultRows }

/-! ## `ProviderCheck.generateJsonString` (`provider/base.py` 248-278)

The generic record builder: for each result row it seeds a dict with
`CONTENT_VERSION`, `SAPMON_VERSION` (= `PAYLOAD_VERSION` from `const.py`)
and `PROVIDER_INSTANCE` (= the owning instance's `name`), then copies each
column of `colIndex` unless the column is internal (name starting `"_"` or
equal to `"DUMMY"`) and not the column mapped to `TimeGenerated`. The
emitted JSON is modelled by the list of row dicts; an absent (`None`) or
empty result yields the empty list (serialised `"[]"`). `none` models a
raised `IndexError` on a row shorter than an index in `colIndex`.
(The `saphanaProviderCheck` override additionally writes a `"METADATA"`
field from `self.providerInstance.metadata`; no code ever sets a `metadata`
attribute on a provider instance, so that line raises `AttributeError` —
the generic builder here is the one every `lastResult` can actually pass
through.) -/

/-- `PAYLOAD_VERSION` (`const.py`). -/
def PAYLOAD_VERSION : PyStr := pstr "0.14.0"

/-- One emitted record, as a dict in insertion order. -/
abbrev LogRecord := List (PyStr × Cell)

/-- Python dict assignment `d[k] = v`: replace the value in place when the
key exists, else append the pair. -/
def dictSet (k : PyStr) (v : Cell) : LogRecord → LogRecord
  | [] => [(k, v)]
  | (k0, v0) :: rest => if k0 = k then (k, v) :: rest else (k0, v0) :: dictSet k v rest

/-- Python `c.startswith(ch)` for a single character. -/
def startsWithChar (ch : Char) : PyStr → Bool
  | [] => false
  | c :: _ => c = ch

/-- Whether `generateJsonString` copies column `c` into the record:
everything except internal columns (leading `"_"` or `"DUMMY"`) that are
not the `TimeGenerated`-mapped column. -/
def keepsColumn (colTimeGenerated : Option PyStr) (c : PyStr) : Bool :=
  !(decide (some c ≠ colTimeGenerated) && (startsWithChar '_' c || decide (c = pstr "DUMMY")))

/-- `self.providerInstance.contentVersion` as a record value (`null` when
the instance has none). -/
def contentVersionCell : Option PyStr → Cell
  | some v => Cell.s v
  | none => Cell.null

/-- The seed dict of one record (`logItem` before the column loop). -/
def seedRecord (contentVersion : Option PyStr) (instanceName : PyStr) : LogRecord :=
  [(pstr "CONTENT_VERSION", contentVersionCell contentVersion),
   (pstr "SAPMON_VERSION", Cell.s PAYLOAD_VERSION),
   (pstr "PROVIDER_INSTANCE", Cell.s instanceName)]

/-- The column-copy loop of `generateJsonString` over `colIndex.keys()`:
a kept column's value is `r[colIndex[c]]` (`none` = the `IndexError` when
the row is shorter). -/
def addColumns (colTimeGenerated : Option PyStr) (r : List Cell) :
    ColIndex → LogRecord → Option LogRecord
  | [], item => some item
  | (c, idx) :: rest, item =>
    if keepsColumn colTimeGenerated c = true then
      r[idx]?.bind fun v => addColumns colTimeGenerated r rest (dictSet c v item)
    else
      addColumns colTimeGenerated r rest item

/-- The row loop of `generateJsonString`. -/
def buildLogData (contentVersion : Option PyStr) (instanceName : PyStr)
    (colTimeGenerated : Option PyStr) (colIndex : ColIndex) :
    List (List Cell) → Option (List LogRecord)
  | [] => some []
  | r :: rs =>
    (addColumns colTimeGenerated r colIndex (seedRecord contentVersion instanceName)).bind
      fun item =>
        (buildLogData contentVersion instanceName colTimeGenerated colIndex rs).bind
          fun rest => some (item :: rest)

/-- `ProviderCheck.generateJsonString`, as the record list it serialises
(`some []` renders as the JSON text `"[]"`). -/
def generateLogData (contentVersion : Option PyStr) (instanceName : PyStr)
    (colTimeGenerated : Option PyStr)
    (lastResult : Option (ColIndex × List (List Cell))) : Option (List LogRecord) :=
  match lastResult with
  | none => some []
  | some (colIndex, resultRows) =>
    buildLogData contentVersion instanceName colTimeGenerated colIndex resultRows

/-! ## `AzureLogAnalytics.ingest` (`helper/azure.py` 191-236)

The Data Collector signature: the signed text is
`"POST\n%d\napplication/json\nx-ms-date:%s\n/api/logs" % (len(content), timestamp)`,
HMAC-SHA256'd under the base64-decoded shared key, base64-encoded, and
carried as `Authorization: SharedKey <workspaceId>:<mac>`. SHA-256, HMAC
and base64 are implemented below over byte lists (`List Nat`, each < 256),
with 32-bit words as `Nat` reduced mod `2^32`. -/

/-- Reduce to a 32-bit word. -/
def w32 (n : Nat) : Nat := n % 4294967296

/-- 32-bit right rotation. -/
def rotr32 (n x : Nat) : Nat := w32 ((x >>> n) ||| (x <<< (32 - n)))

/-- 32-bit complement. -/
def compl32 (x : Nat) : Nat := x ^^^ 4294967295

/-- SHA-256 `Ch`. -/
def shaCh (x y z : Nat) : Nat := (x &&& y) ^^^ (compl32 x &&& z)

/-- SHA-256 `Maj`. -/
def shaMaj (x y z : Nat) : Nat := (x &&& y) ^^^ (x &&& z) ^^^ (y &&& z)

/-- SHA-256 `Σ0`. -/
def bsig0 (x : Nat) : Nat := rotr32 2 x ^^^ rotr32 13 x ^^^ rotr32 22 x

/-- SHA-256 `Σ1`. -/
def bsig1 (x : Nat) : Nat := rotr32 6 x ^^^ rotr32 11 x ^^^ rotr32 25 x

/-- SHA-256 `σ0`. -/
def ssig0 (x : Nat) : Nat := rotr32 7 x ^^^ rotr32 18 x ^^^ (x >>> 3)

/-- SHA-256 `σ1`. -/
def ssig1 (x : Nat) : Nat := rotr32 17 x ^^^ rotr32 19 x ^^^ (x >>> 10)

/-- The SHA-256 round constants (FIPS 180-4, written in decimal). -/
def sha256K : List Nat :=
  [1116352408, 1899447441, 3049323471, 3921009573, 961987163, 1508970993,
   2453635748, 2870763221, 3624381080, 310598401, 607225278, 1426881987,
   1925078388, 2162078206, 2614888103, 3248222580, 3835390401, 4022224774,
   264347078, 604807628, 770255983, 1249150122, 1555081692, 1996064986,
   2554220882, 2821834349, 2952996808, 3210313671, 3336571891, 3584528711,
   113926993, 338241895, 666307205, 773529912, 1294757372, 1396182291,
   1695183700, 1986661051, 2177026350, 2456956037, 2730485921, 2820302411,
   3259730800, 3345764771, 3516065817, 3600352804, 4094571909, 275423344,
   430227734, 506948616, 659060556, 883997877, 958139571, 1322822218,
   1537002063, 1747873779, 1955562222, 2024104815, 2227730452, 2361852424,
   2428436474, 2756734187, 3204031479, 3329325298]

/-- The SHA-256 initial hash value (FIPS 180-4, written in decimal). -/
def sha256H0 : List Nat :=
  [1779033703, 3144134277, 1013904242, 2773480762,
   1359893119, 2600822924, 528734635, 1541459225]

/-- Big-endian 4-byte rendering of a 32-bit word. -/
def be32 (n : Nat) : List Nat :=
  [(n >>> 24) &&& 255, (n >>> 16) &&& 255, (n >>> 8) &&& 255, n &&& 255]

/-- Big-endian 8-byte rendering of a 64-bit quantity. -/
def be64 (n : Nat) : List Nat :=
  [(n >>> 56) &&& 255, (n >>> 48) &&& 255, (n >>> 40) &&& 255, (n >>> 32) &&& 255,
   (n >>> 24) &&& 255, (n >>> 16) &&& 255, (n >>> 8) &&& 255, n &&& 255]

/-- SHA-256 padding: `0x80`, zeros to 56 mod 64, then the bit length. -/
def sha256Pad (msg : List Nat) : List Nat :=
  let L := msg.length
  let k := (64 + 56 - ((L + 1) % 64)) % 64
  msg ++ [128] ++ List.replicate k 0 ++ be64 (8 * L)

/-- Group bytes into big-endian 32-bit words. -/
def bytesToWords : List Nat → List Nat
  | a :: b :: c :: d :: rest => (a * 16777216 + b * 65536 + c * 256 + d) :: bytesToWords rest
  | _ => []

/-- The word at index `i` of the message schedule (0 past the end). -/
def wordAt (w : List Nat) (i : Nat) : Nat := (w.get? i).getD 0

/-- Extend a 16-word block by `n` schedule words. -/
def extendW (w : List Nat) : Nat → List Nat
  | 0 => w
  | n + 1 =>
    let L := w.length
    let nw := w32 (ssig1 (wordAt w (L - 2)) + wordAt w (L - 7) + ssig0 (wordAt w (L - 15)) + wordAt w (L - 16))
    extendW (w ++ [nw]) n

/-- One SHA-256 round on the working variables `[a,b,c,d,e,f,g,h]`. -/
def sha256Round (st : List Nat) (kw : Nat × Nat) : List Nat :=
  match st with
  | [a, b, c, d, e, f, g, h] =>
    let t1 := w32 (h + bsig1 e + shaCh e f g + kw.1 + kw.2)
    let t2 := w32 (bsig0 a + shaMaj a b c)
    [w32 (t1 + t2), a, b, c, w32 (d + t1), e, f, g]
  | _ => st

/-- Compress one 64-byte block into the hash state. -/
def sha256Compress (h : List Nat) (block : List Nat) : List Nat :=
  let w := extendW (bytesToWords block) 48
  let s := (sha256K.zip w).foldl sha256Round h
  (h.zip s).map fun p => w32 (p.1 + p.2)

/-- Fold the padded message, block by block. -/
def sha256Go (h : List Nat) (msg : List Nat) : Nat → List Nat
  | 0 => h
  | n + 1 => sha256Go (sha256Compress h (msg.take 64)) (msg.drop 64) n

/-- SHA-256 of a byte list, as a 32-byte list. -/
def sha256 (msg : List Nat) : List Nat :=
  let padded := sha256Pad msg
  (sha256Go sha256H0 padded (padded.length / 64)).flatMap be32

/-- HMAC-SHA256 (`hmac.new(key, msg, digestmod=hashlib.sha256)`). -/
def hmacSha256 (key msg : List Nat) : List Nat :=
  let k0 := if key.length > 64 then sha256 key else key
  let kp := k0 ++ List.replicate (64 - k0.length) 0
  sha256 ((kp.map fun b => b ^^^ 92) ++ sha256 ((kp.map fun b => b ^^^ 54) ++ msg))

/-- The base64 alphabet character for a 6-bit value. -/
def b64Char (n : Nat) : Char :=
  ((pstr "ABCDEFGHIJKLMNOPQRSTUVWXYZabcdefghijklmnopqrstuvwxyz0123456789+/").get? n).getD 'A'

/-- The 6-bit value of a base64 alphabet character. -/
def b64Val (c : Char) : Option Nat :=
  (pstr "ABCDEFGHIJKLMNOPQRSTUVWXYZabcdefghijklmnopqrstuvwxyz0123456789+/").indexOf? c

/-- `base64.b64encode` of a byte list. -/
def b64encode : List Nat → PyStr
  | [] => []
  | [a] => [b64Char (a >>> 2), b64Char ((a &&& 3) <<< 4), '=', '=']
  | [a, b] => [b64Char (a >>> 2), b64Char (((a &&& 3) <<< 4) ||| (b >>> 4)), b64Char ((b &&& 15) <<< 2), '=']
  | a :: b :: c :: rest =>
    b64Char (a >>> 2) :: b64Char (((a &&& 3) <<< 4) ||| (b >>> 4))
      :: b64Char (((b &&& 15) <<< 2) ||| (c >>> 6)) :: b64Char (c &&& 63) :: b64encode rest

/-- `base64.b64decode` of a text: 4-character groups, the last of which may
end in one or two `=`; `none` models the `binascii.Error` the Python call
raises on malformed input. -/
def b64decode : PyStr → Option (List Nat)
  | [] => some []
  | a :: b :: c :: d :: rest =>
    match b64Val a, b64Val b with
    | some va, some vb =>
      if c = '=' && d = '=' && rest.isEmpty then
        some [(va <<< 2) ||| (vb >>> 4)]
      else
        match b64Val c with
        | some vc =>
          if d = '=' && rest.isEmpty then
            some [(va <<< 2) ||| (vb >>> 4), ((vb &&& 15) <<< 4) ||| (vc >>> 2)]
          else
            match b64Val d with
            | some vd =>
              (b64decode rest).map fun tail =>
                ((va <<< 2) ||| (vb >>> 4)) :: (((vb &&& 15) <<< 4) ||| (vc >>> 2))
                  :: (((vc &&& 3) <<< 6) ||| vd) :: tail
            | none => none
        | none => none
    | _, _ => none
  | _ => none

/-- UTF-8 encoding of one character. -/
def utf8Char (c : Char) : List Nat :=
  let n := c.toNat
  if n < 128 then [n]
  else if n < 2048 then [192 ||| (n >>> 6), 128 ||| (n &&& 63)]
  else if n < 65536 then [224 ||| (n >>> 12), 128 ||| ((n >>> 6) &&& 63), 128 ||| (n &&& 63)]
  else [240 ||| (n >>> 18), 128 ||| ((n >>> 12) &&& 63), 128 ||| ((n >>> 6) &&& 63), 128 ||| (n &&& 63)]

/-- `bytes(s, encoding="utf-8")`. -/
def utf8Encode (s : PyStr) : List Nat := s.flatMap utf8Char

/-- The day-of-week (0 = Sunday) of a Gregorian date, for `strftime %a`. -/
def dayOfWeek (y m d : Nat) : Nat :=
  let t := [0, 3, 2, 5, 0, 3, 5, 1, 4, 6, 2, 4]
  let y := if m < 3 then y - 1 else y
  (y + y / 4 - y / 100 + y / 400 + (t.get? (m - 1)).getD 0 + d) % 7

/-- `%a` weekday abbreviations, indexed by `dayOfWeek`. -/
def dayAbbrev (n : Nat) : PyStr :=
  ((["Sun", "Mon", "Tue", "Wed", "Thu", "Fri", "Sat"].map pstr).get? n).getD (pstr "Sun")

/-- `%b` month abbreviations (1-based). -/
def monthAbbrev (m : Nat) : PyStr :=
  ((["Jan", "Feb", "Mar", "Apr", "May", "Jun", "Jul", "Aug", "Sep", "Oct", "Nov", "Dec"].map pstr).get? (m - 1)).getD (pstr "Jan")

/-- `TIME_FORMAT_LOG_ANALYTICS = "%a, %d %b %Y %H:%M:%S GMT"` (`const.py`),
applied by `datetime.strftime`. -/
def strftimeLogAnalytics (d : Dt) : PyStr :=
  dayAbbrev (dayOfWeek d.year d.month d.day) ++ pstr ", " ++ padNat 2 d.day ++ pstr " "
    ++ monthAbbrev d.month ++ pstr " " ++ padNat 4 d.year ++ pstr " " ++ padNat 2 d.hour
    ++ pstr ":" ++ padNat 2 d.minute ++ pstr ":" ++ padNat 2 d.second ++ pstr " GMT"

/-- `buildSig` (the inner function of `AzureLogAnalytics.ingest`): `none`
models the `binascii.Error` raised when the stored shared key is not valid
base64. -/
def buildSig (workspaceId sharedKey content timestamp : PyStr) : Option PyStr :=
  let stringHash := pstr "POST\n" ++ natDec content.length
    ++ pstr "\napplication/json\nx-ms-date:" ++ timestamp ++ pstr "\n/api/logs"
  let bytesHash := utf8Encode stringHash
  (b64decode sharedKey).map fun decodedKey =>
    pstr "SharedKey " ++ workspaceId ++ pstr ":" ++ b64encode (hmacSha256 decodedKey bytesHash)

/-- The header dict `AzureLogAnalytics.ingest` sends, with
`datetime.utcnow()` passed in as `now`. -/
def ingestHeaders (workspaceId sharedKey customLog jsonData colTimeGenerated : PyStr)
    (now : Dt) : Option (List (PyStr × PyStr)) :=
  let timestamp := strftimeLogAnalytics now
  (buildSig workspaceId sharedKey jsonData timestamp).map fun auth =>
    [(pstr "content-type", pstr "application/json"),
     (pstr "Authorization", auth),
     (pstr "Log-Type", customLog),
     (pstr "x-ms-date", timestamp),
     (pstr "time-generated-field", colTimeGenerated)]

/-- Modelled from the claim's words, for comparison with `ingestHeaders`:
the Authorization value is `"SharedKey <workspaceId>:<mac>"` where `<mac>`
is the base64 encoding of the HMAC-SHA256, keyed with the base64-decoded
shared key, of exactly
`"POST\n<length of jsonData>\napplication/json\nx-ms-date:<timestamp>\n/api/logs"`,
the timestamp being the current UTC time formatted
`"%a, %d %b %Y %H:%M:%S GMT"`. -/
def claimAuthorization (workspaceId sharedKey jsonData : PyStr) (now : Dt) : Option PyStr :=
  (b64decode sharedKey).map fun key =>
    let signedString := pstr "POST\n" ++ natDec jsonData.length
      ++ pstr "\napplication/json\nx-ms-date:" ++ strftimeLogAnalytics now ++ pstr "\n/api/logs"
    let mac := b64encode (hmacSha256 key (utf8Encode signedString))
    pstr "SharedKey " ++ workspaceId ++ pstr ":" ++ mac

/-! ## `saphanaProviderCheck._actionProbeSqlConnection` (`provider/saphana.py` 375-470)

For each host of the stored host config, in `sorted(...)` order, the check
probes the SQL (index-server) port and then the derived nameserver port
(`int(str(portSQL)[:-2] + "01")`). An attempt counts as up when the
connection reports `isconnected()`, or when the raised error's lowercased
text contains `"89008"` or `"socket closed"`; any other raised error leaves
`success` untouched (the source merely logs differently for the known
"down" texts `"89001"`, `"cannot resolve host name"`, `"89006"`,
`"connection refused"`, `"timeout expired"`). After the first up attempt
the latency of that attempt is recorded and the port loop stops. One row
`[utcnow, host, success, latency]` is appended per host; `colTimeGenerated`
is `"_LOCAL_UTC"`. The network is modelled as an environment mapping (host,
port) to the attempt's outcome and elapsed milliseconds, and `utcnow` as a
per-host timestamp source. -/

/-- The outcome of one `_establishHanaConnectionToHost` attempt: a returned
connection (with its `isconnected()` answer), or a raised `dbapi.Error`
with its `errortext`. `elapsedMs` is the wall-clock time the attempt took. -/
inductive ProbeOutcome where
  | conn (isconnected : Bool) (elapsedMs : Nat)
  | err (errortext : PyStr) (elapsedMs : Nat)
deriving DecidableEq, Repr

/-- The environment one probe run sees. -/
structure ProbeEnv where
  outcome : PyStr → Nat → ProbeOutcome
  utcnow : PyStr → Dt

/-- `int(str(portSQL)[:-2] + "01")`: the hdbnameserver port derived from
the SQL port. -/
def nameserverPort (portSQL : Nat) : Nat := portSQL / 100 * 100 + 1

/-- Whether one attempt sets `success = True`: `isconnected()`, or an error
whose lowercased text contains `"89008"` or `"socket closed"`. -/
def upAttempt : ProbeOutcome → Bool
  | .conn b _ => b
  | .err t _ => containsSub (pstr "89008") (lowerStr t) || containsSub (pstr "socket closed") (lowerStr t)

/-- The elapsed milliseconds of an attempt. -/
def attemptElapsed : ProbeOutcome → Nat
  | .conn _ e => e
  | .err _ e => e

/-- An attempt that raised and whose lowercased text contains one of the
known "down" markers but no "up" marker. -/
def downErrAttempt (o : ProbeOutcome) : Bool :=
  match o with
  | .conn _ _ => false
  | .err t _ =>
    let msg := lowerStr t
    !(containsSub (pstr "89008") msg || containsSub (pstr "socket closed") msg) &&
      (containsSub (pstr "89001") msg || containsSub (pstr "cannot resolve host name") msg
        || containsSub (pstr "89006") msg || containsSub (pstr "connection refused") msg
        || containsSub (pstr "timeout expired") msg)

/-- The port loop for one host: `(success, latency)` after trying the SQL
port and, if that attempt was not up, the nameserver port. -/
def probeHost (env : ProbeEnv) (portSQL : Nat) (host : PyStr) : Bool × Option Nat :=
  let o1 := env.outcome host portSQL
  if upAttempt o1 then (true, some (attemptElapsed o1))
  else
    let o2 := env.outcome host (nameserverPort portSQL)
    if upAttempt o2 then (true, some (attemptElapsed o2))
    else (false, none)

/-- The result row the probe appends for one host:
`[datetime.utcnow(), host, success, latency]`. -/
def probeRow (env : ProbeEnv) (portSQL : Nat) (host : PyStr) : List Cell :=
  let r := probeHost env portSQL host
  [Cell.t (env.utcnow host), Cell.s host, Cell.b r.1,
   match r.2 with | some l => Cell.i (Int.ofNat l) | none => Cell.null]

/-- Lexicographic (code-point) order on `PyStr`, as Python `sorted` uses. -/
def strLe : PyStr → PyStr → Bool
  | [], _ => true
  | _ :: _, [] => false
  | a :: as_, b :: bs =>
    if a.toNat < b.toNat then true
    else if a.toNat = b.toNat then strLe as_ bs
    else false

/-- Insert into a `strLe`-sorted list. -/
def insertStr (x : PyStr) : List PyStr → List PyStr
  | [] => [x]
  | y :: ys => if strLe x y then x :: y :: ys else y :: insertStr x ys

/-- Python `sorted` on a list of strings (insertion sort; the keys are the
values, so stability is invisible). -/
def sortStrs : List PyStr → List PyStr
  | [] => []
  | x :: xs => insertStr x (sortStrs xs)

/-- The `colIndex` the probe action stores into `lastResult`. -/
def probeColIndex : ColIndex :=
  [(pstr "_LOCAL_UTC", 0), (pstr "HOST", 1), (pstr "SUCCESS", 2), (pstr "LATENCY_MS", 3)]

/-- `_actionProbeSqlConnection`, from the stored host config (`none` models
the exception raised when `"hostConfig"` is not in the provider state) to
`(colTimeGenerated, lastResult)`. -/
def actionProbeSqlConnection (env : ProbeEnv) (portSQL : Nat)
    (hostConfigHosts : Option (List PyStr)) :
    Option (PyStr × ColIndex × List (List Cell)) :=
  match hostConfigHosts with
  | none => none
  | some hosts =>
    some (pstr "_LOCAL_UTC", probeColIndex, (sortStrs hosts).map (probeRow env portSQL))

/-! ## `PrometheusCheck.convertResultIntoJson` (`provider/prometheus.py` 98-154)

The fetched exposition text is parsed into metric families (by the external
`prometheus_client` parser, modelled as an environment function; a `None`
fetch result parses to no families — `io.StringIO(None)` is the empty
stream). A family is kept when `includePrefixes` is configured and its
compiled regex matches the name, or, with no `includePrefixes`, when the
exclude regex (default `^(?:go|promhttp|process)_`) does not match. Every
sample of a kept family becomes one record; a synthetic `up` sample (value
1 when the fetched text is truthy, else 0) is appended. No other synthetic
sample exists in the source. Regex matchers are modelled as `PyStr → Bool`
predicates; the default exclude regex concretely. Sample values are passed
through untouched and modelled as `Int`. -/

/-- One parsed Prometheus sample. -/
structure PromSample where
  name : PyStr
  labels : List (PyStr × PyStr)
  value : Int
  timestamp : Option Int
deriving DecidableEq, Repr

/-- One parsed metric family. -/
structure MetricFamily where
  name : PyStr
  samples : List PromSample
deriving DecidableEq, Repr

/-- One record of the produced result set (`prometheusSample2Dict`). -/
structure PromRecord where
  name : PyStr
  labels : List (PyStr × PyStr)
  value : Int
  timestampUnix : Int
  timeGenerated : PyStr
  instanceName : PyStr
  correlationId : PyStr
  customFields : List (PyStr × PyStr)
deriving DecidableEq, Repr

/-- Python dict assignment on a label dict. -/
def labelSet (k v : PyStr) : List (PyStr × PyStr) → List (PyStr × PyStr)
  | [] => [(k, v)]
  | (k0, v0) :: rest => if k0 = k then (k, v) :: rest else (k0, v0) :: labelSet k v rest

/-- The per-fetch context `convertResultIntoJson` closes over: the URL's
netloc (`promUrl.instance`), the connection's custom fields, the fetch's
`uuid4` correlation id, the `time.time()` fallback timestamp, and the
timestamp-to-ISO-text conversion (`datetime.fromtimestamp(..., utc).isoformat() + "Z"`,
an external library call). -/
structure PromCtx where
  instanceName : PyStr
  customFields : List (PyStr × PyStr)
  correlationId : PyStr
  isotimeFallback : Int
  isoOf : Int → PyStr

/-- `prometheusSample2Dict`: one sample to one record, with `instance`
inserted into the labels and the custom fields appended under `custom_`
names. -/
def prometheusSample2Dict (ctx : PromCtx) (sample : PromSample) : PromRecord :=
  let ts := sample.timestamp.getD ctx.isotimeFallback
  { name := sample.name
    labels := labelSet (pstr "instance") ctx.instanceName sample.labels
    value := sample.value
    timestampUnix := ts
    timeGenerated := ctx.isoOf ts
    instanceName := ctx.instanceName
    correlationId := ctx.correlationId
    customFields := ctx.customFields.map fun p => (pstr "custom_" ++ p.1, p.2) }

/-- The default exclude regex `^(?:go|promhttp|process)_` of
`PrometheusCheck.__init__`, as the anchored-match predicate `re.match`
computes for it. -/
def defaultExcludeMatch (name : PyStr) : Bool :=
  (pstr "go_").isPrefixOf name || (pstr "promhttp_").isPrefixOf name
    || (pstr "process_").isPrefixOf name

/-- `filter_prometheus_metric`: keep a family per the include matcher when
one is configured, else drop it when the exclude matcher matches. -/
def filterPrometheusMetric (includeMatch : Option (PyStr → Bool))
    (excludeMatch : Option (PyStr → Bool)) (family : MetricFamily) : Bool :=
  match includeMatch with
  | some m => m family.name
  | none =>
    match excludeMatch with
    | some m => !m family.name
    | none => true

/-- Python truthiness of the fetched text (`1 if promData else 0`): `None`
and the empty string are falsy. -/
def promDataTruthy : Option PyStr → Bool
  | none => false
  | some [] => false
  | some (_ :: _) => true

/-- `PrometheusCheck.convertResultIntoJson`: the record list it serialises.
`parser` stands for `text_string_to_metric_families`; a `None` fetch result
yields no families. -/
def convertResultIntoJson (includeMatch : Option (PyStr → Bool))
    (excludeMatch : Option (PyStr → Bool)) (parser : PyStr → List MetricFamily)
    (ctx : PromCtx) (promData : Option PyStr) : List PromRecord :=
  let families :=
    match promData with
    | none => []
    | some text => parser text
  let kept := families.filter (filterPrometheusMetric includeMatch excludeMatch)
  let records := kept.flatMap fun f => f.samples.map (prometheusSample2Dict ctx)
  records ++ [prometheusSample2Dict ctx ⟨pstr "up", [], if promDataTruthy promData then 1 else 0, none⟩]

/-! ## `ConfigHandler.loadConfig` (`helper/config.py` 23-59)

Every secret of the customer KeyVault is examined in turn: a value that is
not valid JSON is skipped with an error trace; the secret named `global`
becomes the global parameter set; any other name is split on `"-"` and
skipped with an error trace unless it has exactly two parts whose first is
a registered provider type. The parsed JSON payloads are opaque here. -/

/-- An opaque parsed-JSON payload (a secret's value once `json.loads`
succeeded). -/
abbrev JsonProps := PyStr

/-- One provider instance descriptor `loadConfig` returns. -/
structure ProviderRef where
  ptype : PyStr
  name : PyStr
  properties : JsonProps
deriving DecidableEq, Repr

/-- One error trace `loadConfig` emits while scanning the secrets. -/
inductive ConfigTraceError where
  | invalidJson (secretName : PyStr)
  | invalidSecretName (secretName : PyStr)
  | unknownProviderType (secretName : PyStr)
deriving DecidableEq, Repr

/-- The accumulated outcome of `loadConfig`. -/
structure LoadConfigResult where
  globalParams : Option JsonProps
  instances : List ProviderRef
  errors : List ConfigTraceError
deriving DecidableEq, Repr

/-- Python `s.split("-")`. -/
def splitOnChar (sep : Char) : PyStr → List PyStr
  | [] => [[]]
  | c :: cs =>
    match splitOnChar sep cs with
    | [] => [[]]
    | p :: ps => if c = sep then [] :: p :: ps else (c :: p) :: ps

/-- The loop body of `loadConfig` over one secret, threading the
accumulated result. A secret's value is `none` when `json.loads` raises. -/
def loadConfigStep (availableProviders : List PyStr) (acc : LoadConfigResult)
    (secret : PyStr × Option JsonProps) : LoadConfigResult :=
  match secret.2 with
  | none => { acc with errors := acc.errors ++ [.invalidJson secret.1] }
  | some props =>
    if secret.1 = pstr "global" then
      { acc with globalParams := some props }
    else
      let parts := splitOnChar '-' secret.1
      if parts.length ≠ 2 then
        { acc with errors := acc.errors ++ [.invalidSecretName secret.1] }
      else if !availableProviders.contains (parts.headI) then
        { acc with errors := acc.errors ++ [.unknownProviderType secret.1] }
      else
        { acc with instances := acc.instances
            ++ [⟨parts.headI, (parts.get? 1).getD [], props⟩] }

/-- `ConfigHandler.loadConfig`, over the secret list in enumeration order. -/
def loadConfig (availableProviders : List PyStr)
    (secrets : List (PyStr × Option JsonProps)) : LoadConfigResult :=
  secrets.foldl (loadConfigStep availableProviders) ⟨none, [], []⟩

/-- Python dict lookup on a record. -/
def dictGet (k : PyStr) : LogRecord → Option Cell
  | [] => none
  | (k0, v) :: rest => if k0 = k then some v else dictGet k rest

/-- The index from which the record's final value for key `k` comes: the
last copied (`keepsColumn`) occurrence of `k` in the column dictionary
(later Python dict assignments overwrite earlier ones). -/
def lastKeptIdx (ctg : Option PyStr) (k : PyStr) : ColIndex → Option Nat
  | [] => none
  | (c, idx) :: rest =>
    match lastKeptIdx ctg k rest with
    | some i => some i
    | none => if c = k ∧ keepsColumn ctg c = true then some idx else none

/-- A fixed timestamp for the probe witness. -/
def probeDtExample : Dt := ⟨2020, 3, 15, 10, 0, 0, 0⟩

/-- A concrete probe environment: `hdb01`'s index server answers with the
stand-by error `89008`, every other attempt is refused. -/
def probeEnvExample : ProbeEnv :=
  ⟨fun host port =>
      if host = pstr "hdb01" ∧ port = 30015 then
        ProbeOutcome.err (pstr "Connection failed (RTE:[89008] Socket closed by peer") 7
      else ProbeOutcome.err (pstr "Connection refused") 3,
    fun _ => probeDtExample⟩

/-- Modelled from the claim's words, for comparison with `loadConfig`: a
secret contributes a provider instance exactly when its value is valid
JSON, its name is not `global`, and the name splits on `-` into exactly
two parts whose first is a registered provider type. -/
def claimInstancesOf (available : List PyStr)
    (secrets : List (PyStr × Option JsonProps)) : List ProviderRef :=
  secrets.filterMap fun s =>
    match s.2 with
    | none => none
    | some props =>
      let parts := splitOnChar '-' s.1
      if s.1 ≠ pstr "global" ∧ parts.length = 2 ∧ available.contains parts.headI = true then
        some ⟨parts.headI, (parts.get? 1).getD [], props⟩
      else none

/-- Dict lookup on a header mapping. -/
def headerGet (k : PyStr) : List (PyStr × PyStr) → Option PyStr
  | [] => none
  | (k0, v) :: rest => if k0 = k then some v else headerGet k rest

/-! ## Theorems -/

set_option maxRecDepth 4000

/-- Claim C1 (code bug): on the spec's own end-to-end input — query
`SELECT TOP 1 HOST, VALUE FROM M_FOO WHERE UTC_TIMESTAMP > {lastRunServerUtc}`,
`isTimeSeries=true`, `initialTimespanSecs=60`, empty state — `_prepareSql`
returns the query with only the placeholder substituted: the
`", CURRENT_UTCTIMESTAMP AS _SERVER_UTC FROM DUMMY,"` insertion is computed
and then discarded, because the time-series branch substitutes into `sql`
instead of `preparedSql`. The claimed prepared SQL (beginning
`SELECT TOP 1 HOST, VALUE, CURRENT_UTCTIMESTAMP AS _SERVER_UTC FROM DUMMY, M_FOO ...`)
is not produced; the result does not contain `_SERVER_UTC` at all. -/
theorem prepareSql_timeSeries_discards_from_rewrite :
    prepareSql (pstr "SELECT TOP 1 HOST, VALUE FROM M_FOO WHERE UTC_TIMESTAMP > {lastRunServerUtc}")
        true 60 none
      = some (pstr "SELECT TOP 1 HOST, VALUE FROM M_FOO WHERE UTC_TIMESTAMP > ADD_SECONDS(NOW(), i.VALUE*(-1) - 60)")
    ∧ (prepareSql (pstr "SELECT TOP 1 HOST, VALUE FROM M_FOO WHERE UTC_TIMESTAMP > {lastRunServerUtc}")
        true 60 none).map (containsSub (pstr "_SERVER_UTC"))
      = some false := by
  decide

/-- Claim C2 (counterexample): a single always-failing `ExecuteSql` action
carrying `retries=2, delayInSeconds=1, backoffMultiplier=3` is attempted
exactly once by `ProviderCheck.run`, with no wait — not the claimed
`1 + retries = 3` attempts with waits of 1 s and 3 s. -/
theorem run_failing_action_attempted_once_cex :
    runEvents [⟨pstr "ExecuteSql", ActionBehavior.returnsFalse, some 2, some 1, some 3⟩]
      = [RunEvent.call (pstr "_actionExecuteSql")]
    ∧ (runEvents [⟨pstr "ExecuteSql", ActionBehavior.returnsFalse, some 2, some 1, some 3⟩]).length
      ≠ 1 + 2
    ∧ ¬ RunEvent.wait 1
        ∈ runEvents [⟨pstr "ExecuteSql", ActionBehavior.returnsFalse, some 2, some 1, some 3⟩] := by
  decide

/-- No `wait` event occurs in a run, and the calls are exactly one per
executed action. -/
theorem runEvents_eq_executed_map (actions : List CheckAction) :
    runEvents actions = (executedActions actions).map fun a => RunEvent.call (methodNameOf a) := by
  induction actions with
  | nil => rfl
  | cons a rest ih =>
    cases h : a.behavior <;> simp [runEvents, executedActions, h, ih]

/-- When no action raises, every action is executed. -/
theorem executedActions_eq_of_no_raise (actions : List CheckAction)
    (h : ∀ a ∈ actions, a.behavior ≠ ActionBehavior.raises) :
    executedActions actions = actions := by
  induction actions with
  | nil => rfl
  | cons a rest ih =>
    have ha := h a (by simp)
    cases hb : a.behavior with
    | raises => exact absurd hb ha
    | ok => simp [executedActions, hb, ih fun x hx => h x (by simp [hx])]
    | returnsFalse => simp [executedActions, hb, ih fun x hx => h x (by simp [hx])]

/-- Claim C2 (amended): `ProviderCheck.run` attempts each action at most
once — exactly once when no earlier action raised — calling the `_action`
methods in declared order, and it never waits: there is no retry loop, and
the per-action `retries`/`delayInSeconds`/`backoffMultiplier` keys are
never read (two action lists differing only in those keys produce the same
events). -/
theorem run_attempts_each_action_once_without_wait (actions : List CheckAction) :
    (∀ e ∈ runEvents actions, ∀ s, e ≠ RunEvent.wait s)
    ∧ runEvents actions = (executedActions actions).map (fun a => RunEvent.call (methodNameOf a))
    ∧ ((∀ a ∈ actions, a.behavior ≠ ActionBehavior.raises) →
        runEvents actions = actions.map fun a => RunEvent.call (methodNameOf a)) := by
  refine ⟨?_, runEvents_eq_executed_map actions, ?_⟩
  · intro e he s
    rw [runEvents_eq_executed_map actions] at he
    obtain ⟨a, -, rfl⟩ := List.mem_map.mp he
    simp
  · intro h
    rw [runEvents_eq_executed_map actions, executedActions_eq_of_no_raise actions h]

/-- Claim C2 (witness for the amended claim): for the concrete two-action
check with no raising action, the run calls each `_action` method exactly
once and emits no wait. -/
theorem run_attempts_witness :
    runEvents [⟨pstr "Foo", ActionBehavior.returnsFalse, some 2, some 1, some 3⟩,
               ⟨pstr "Bar", ActionBehavior.ok, none, none, none⟩]
      = [RunEvent.call (pstr "_actionFoo"), RunEvent.call (pstr "_actionBar")] := by
  have h := (run_attempts_each_action_once_without_wait
    [⟨pstr "Foo", ActionBehavior.returnsFalse, some 2, some 1, some 3⟩,
     ⟨pstr "Bar", ActionBehavior.ok, none, none, none⟩]).2.2 (by decide)
  rw [h]
  decide

/-- Claim C3 (code bug): a check whose first action fails by returning
`False` (the failure mode of `sapsqlProviderCheck._actionExecuteSql`) still
executes its second action: `run` logs "skipping remaining actions" but its
loop has no `break`, so nothing is skipped. -/
theorem run_executes_action_after_failed_action :
    runEvents [⟨pstr "ExecuteSql", ActionBehavior.returnsFalse, none, none, none⟩,
               ⟨pstr "ParseHostConfig", ActionBehavior.ok, none, none, none⟩]
      = [RunEvent.call (pstr "_actionExecuteSql"), RunEvent.call (pstr "_actionParseHostConfig")]
    ∧ RunEvent.call (pstr "_actionParseHostConfig")
        ∈ runEvents [⟨pstr "ExecuteSql", ActionBehavior.returnsFalse, none, none, none⟩,
                     ⟨pstr "ParseHostConfig", ActionBehavior.ok, none, none, none⟩] := by
  decide

/-- Claim C4 (counterexample): persist a check state with
`isEnabled = False` (an operator toggle), re-create the check from the
content catalogue (`enabled = True`), and read the state file back:
`readState` sets `isEnabled` to `True` — the in-memory value — not to the
persisted `False`. -/
theorem readState_overwrites_persisted_isEnabled_cex :
    (readStateChecks (writeStateChecks [⟨pstr "c1", ⟨some false, [(pstr "lastRunLocal", Cell.null)]⟩⟩])
        [newCheckObj (pstr "c1") true]).map (fun c => c.state.isEnabled)
      = [some true]
    ∧ (some true : Option Bool) ≠ some false := by
  decide

/-- The `readState` loop with any starting `saveIsEnabled`: when every
check's in-memory state carries an `isEnabled` key (as every constructed
check does), each check receives the persisted state for its name — or `{}`
when the file has none — with `isEnabled` overwritten by its own in-memory
value. -/
theorem readStateLoop_spec (persisted : List (PyStr × CheckStateDict))
    (save : Option Bool) (checks : List CheckObj)
    (h : ∀ c ∈ checks, c.state.isEnabled ≠ none) :
    readStateLoop persisted save checks = checks.map fun c =>
      ⟨c.name, { (persisted.lookup c.name).getD emptyCheckStateDict with
                 isEnabled := c.state.isEnabled }⟩ := by
  induction checks generalizing save with
  | nil => rfl
  | cons c cs ih =>
    have hc := h c (by simp)
    cases hce : c.state.isEnabled with
    | none => exact absurd hce hc
    | some b =>
      simp only [readStateLoop, hce, List.map_cons]
      exact congrArg _ (ih _ fun x hx => h x (by simp [hx]))

/-- Claim C4 (amended): across a state write → content reload → state read
cycle, `readState` does not preserve the persisted `isEnabled`: each
re-created check adopts the persisted state for its name except `isEnabled`,
which is restored to the check's own in-memory (content-catalogue) value,
so a persisted operator toggle is overwritten; the other checks' values do
not interfere (given that every constructed check has `isEnabled` set). -/
theorem readState_restores_in_memory_isEnabled (persisted : List (PyStr × CheckStateDict))
    (checks : List CheckObj) (h : ∀ c ∈ checks, c.state.isEnabled ≠ none) :
    readStateChecks persisted checks = checks.map fun c =>
      ⟨c.name, { (persisted.lookup c.name).getD emptyCheckStateDict with
                 isEnabled := c.state.isEnabled }⟩ :=
  readStateLoop_spec persisted none checks h

/-- Claim C4 (witness): two checks, one persisted toggle each; after the
cycle both carry their in-memory flags over the freshly loaded states. -/
theorem readState_restores_witness :
    readStateChecks
        [(pstr "c1", ⟨some false, [(pstr "k", Cell.i 1)]⟩), (pstr "c2", ⟨some true, []⟩)]
        [newCheckObj (pstr "c1") true, newCheckObj (pstr "c2") false]
      = [⟨pstr "c1", ⟨some true, [(pstr "k", Cell.i 1)]⟩⟩, ⟨pstr "c2", ⟨some false, []⟩⟩] := by
  have h := readState_restores_in_memory_isEnabled
    [(pstr "c1", ⟨some false, [(pstr "k", Cell.i 1)]⟩), (pstr "c2", ⟨some true, []⟩)]
    [newCheckObj (pstr "c1") true, newCheckObj (pstr "c2") false] (by decide)
  rw [h]
  decide

/-- `serverUtcUpdate` never touches `lastRunLocal`. -/
theorem serverUtcUpdate_lastRunLocal (ci : ColIndex) (rows : List (List Cell))
    (st1 st2 : HanaCheckState) (h : serverUtcUpdate ci rows st1 = some st2) :
    st2.lastRunLocal = st1.lastRunLocal := by
  unfold serverUtcUpdate at h
  split at h
  · split at h
    · obtain ⟨v, -, hst⟩ := Option.map_eq_some'.mp h
      rw [← hst]
    · split at h
      · obtain ⟨v, -, hst⟩ := Option.map_eq_some'.mp h
        rw [← hst]
      · cases h; rfl
  · cases h; rfl

/-- Claim C5: after a HANA check action run, `updateState` stores
`lastRunLocal` from the first row's `_LOCAL_UTC` when that column is
indexed and from `datetime.utcnow()` otherwise, and, on a non-empty result,
`lastRunServer` from the last row's `_TIMESERIES_UTC` when indexed, else
from the first row's `_SERVER_UTC` when indexed — in particular, on any
time-series result (with `_TIMESERIES_UTC` indexed) of at least one row,
`lastRunServer` equals the `_TIMESERIES_UTC` of the last row. -/
theorem updateState_spec (ci : ColIndex) (rows : List (List Cell)) (now : Dt)
    (st st' : HanaCheckState) (h : updateState ci rows now st = some st') :
    (ci.lookup (pstr "_LOCAL_UTC") = none → st'.lastRunLocal = some (Cell.t now))
    ∧ (∀ idx r0 v, ci.lookup (pstr "_LOCAL_UTC") = some idx → rows.head? = some r0 →
        r0.get? idx = some v → st'.lastRunLocal = some v)
    ∧ (∀ idx rl v, ci.lookup (pstr "_TIMESERIES_UTC") = some idx → rows.getLast? = some rl →
        rl.get? idx = some v → st'.lastRunServer = some v)
    ∧ (rows ≠ [] → ci.lookup (pstr "_TIMESERIES_UTC") = none →
        ∀ idx r0 v, ci.lookup (pstr "_SERVER_UTC") = some idx → rows.head? = some r0 →
          r0.get? idx = some v → st'.lastRunServer = some v) := by
  unfold updateState at h
  rcases hl : localUtcValue ci rows now with _ | lrl
  · rw [hl] at h; cases h
  rw [hl, Option.some_bind] at h
  rcases hs : serverUtcUpdate ci rows { st with lastRunLocal := some lrl } with _ | st2
  · rw [hs] at h; cases h
  rw [hs] at h
  simp only [Option.map_some'] at h
  have hlocal : st'.lastRunLocal = some lrl := by
    cases h.symm
    simpa using serverUtcUpdate_lastRunLocal ci rows _ st2 hs
  have hserver : st'.lastRunServer = st2.lastRunServer := by cases h.symm; rfl
  refine ⟨?_, ?_, ?_, ?_⟩
  · intro hnone
    unfold localUtcValue at hl
    rw [hnone] at hl
    cases hl
    exact hlocal
  · intro idx r0 v hidx hr0 hv
    unfold localUtcValue at hl
    simp only [hidx, hr0, hv, Option.some_bind] at hl
    cases hl
    exact hlocal
  · intro idx rl v hidx hrl hv
    have hpos : rows.length > 0 := by
      cases rows with
      | nil => simp at hrl
      | cons a l => simp
    unfold serverUtcUpdate at hs
    rw [if_pos hpos] at hs
    simp only [hidx, hrl, hv, Option.some_bind, Option.map_some'] at hs
    cases hs
    rw [hserver]
  · intro hne hts idx r0 v hidx hr0 hv
    have hpos : rows.length > 0 := by
      cases rows with
      | nil => exact absurd rfl hne
      | cons a l => simp
    unfold serverUtcUpdate at hs
    rw [if_pos hpos] at hs
    simp only [hts, hidx, hr0, hv, Option.some_bind, Option.map_some'] at hs
    cases hs
    rw [hserver]

/-- Claim C5 (witness): a two-row time-series result with `_TIMESERIES_UTC`
at index 0: `lastRunLocal` becomes the current time (no `_LOCAL_UTC`
column) and `lastRunServer` the last row's timestamp. -/
theorem updateState_witness :
    ∃ st', updateState [(pstr "_TIMESERIES_UTC", 0), (pstr "HOST", 1)]
        [[Cell.t ⟨2020, 1, 1, 0, 0, 0, 0⟩, Cell.s (pstr "h1")],
         [Cell.t ⟨2020, 1, 1, 0, 1, 0, 0⟩, Cell.s (pstr "h2")]]
        ⟨2020, 1, 1, 0, 2, 0, 0⟩ ⟨none, none, none⟩ = some st'
      ∧ st'.lastRunLocal = some (Cell.t ⟨2020, 1, 1, 0, 2, 0, 0⟩)
      ∧ st'.lastRunServer = some (Cell.t ⟨2020, 1, 1, 0, 1, 0, 0⟩) := by
  have hrun : updateState [(pstr "_TIMESERIES_UTC", 0), (pstr "HOST", 1)]
      [[Cell.t ⟨2020, 1, 1, 0, 0, 0, 0⟩, Cell.s (pstr "h1")],
       [Cell.t ⟨2020, 1, 1, 0, 1, 0, 0⟩, Cell.s (pstr "h2")]]
      ⟨2020, 1, 1, 0, 2, 0, 0⟩ ⟨none, none, none⟩
      = some ⟨some (Cell.t ⟨2020, 1, 1, 0, 2, 0, 0⟩), some (Cell.t ⟨2020, 1, 1, 0, 1, 0, 0⟩),
              some [[Cell.t ⟨2020, 1, 1, 0, 0, 0, 0⟩, Cell.s (pstr "h1")],
                    [Cell.t ⟨2020, 1, 1, 0, 1, 0, 0⟩, Cell.s (pstr "h2")]]⟩ := by decide
  have hspec := updateState_spec _ _ _ _ _ hrun
  refine ⟨_, hrun, ?_, ?_⟩
  · exact hspec.1 (by decide)
  · exact hspec.2.2.1 0 [Cell.t ⟨2020, 1, 1, 0, 1, 0, 0⟩, Cell.s (pstr "h2")]
      (Cell.t ⟨2020, 1, 1, 0, 1, 0, 0⟩) (by decide) (by decide) (by decide)

/-- Looking up the key just set. -/
theorem dictGet_dictSet_self (k : PyStr) (v : Cell) (m : LogRecord) :
    dictGet k (dictSet k v m) = some v := by
  induction m with
  | nil => simp [dictSet, dictGet]
  | cons p rest ih =>
    by_cases hp : p.1 = k
    · simp [dictSet, hp, dictGet]
    · simp [dictSet, hp, dictGet, ih]

/-- Looking up another key after a set. -/
theorem dictGet_dictSet_ne (k k' : PyStr) (v : Cell) (m : LogRecord) (h : k' ≠ k) :
    dictGet k' (dictSet k v m) = dictGet k' m := by
  have hne : k ≠ k' := fun hh => h hh.symm
  induction m with
  | nil => simp [dictSet, dictGet, hne]
  | cons p rest ih =>
    obtain ⟨k0, v0⟩ := p
    by_cases hp : k0 = k
    · subst hp
      simp only [dictSet, if_pos rfl, dictGet, if_neg hne]
    · simp only [dictSet, if_neg hp, dictGet, ih]

/-- What `addColumns` leaves under each key: the row value at the last
kept occurrence of the key, else the seed's value. Success also guarantees
the row value exists at every kept index. -/
theorem addColumns_lookup (ctg : Option PyStr) (r : List Cell) (cols : ColIndex)
    (item item' : LogRecord) (h : addColumns ctg r cols item = some item') (k : PyStr) :
    (lastKeptIdx ctg k cols = none → dictGet k item' = dictGet k item)
    ∧ (∀ i, lastKeptIdx ctg k cols = some i → ∃ v, r[i]? = some v ∧ dictGet k item' = some v) := by
  induction cols generalizing item with
  | nil =>
    cases h
    exact ⟨fun _ => rfl, fun i hi => by cases hi⟩
  | cons p rest ih =>
    obtain ⟨c, idx⟩ := p
    by_cases hkeep : keepsColumn ctg c = true
    · rcases hv : r[idx]? with _ | v
      · simp only [addColumns, hkeep, if_true, hv, Option.none_bind] at h
        cases h
      · simp only [addColumns, hkeep, if_true, hv, Option.some_bind] at h
        have ihh := ih (dictSet c v item) h
        constructor
        · intro hnone
          rcases hrest : lastKeptIdx ctg k rest with _ | j
          · simp only [lastKeptIdx, hrest] at hnone
            by_cases hck : c = k
            · rw [if_pos ⟨hck, hkeep⟩] at hnone
              cases hnone
            · rw [ihh.1 hrest, dictGet_dictSet_ne _ _ _ _ (fun hh => hck hh.symm)]
          · simp only [lastKeptIdx, hrest] at hnone
            cases hnone
        · intro i hi
          rcases hrest : lastKeptIdx ctg k rest with _ | j
          · simp only [lastKeptIdx, hrest] at hi
            by_cases hck : c = k
            · rw [if_pos ⟨hck, hkeep⟩] at hi
              cases hi
              refine ⟨v, hv, ?_⟩
              rw [ihh.1 hrest, hck, dictGet_dictSet_self]
            · rw [if_neg (fun hh => hck hh.1)] at hi
              cases hi
          · simp only [lastKeptIdx, hrest] at hi
            cases hi
            exact ihh.2 _ hrest
    · simp only [addColumns, hkeep, if_false, Bool.false_eq_true] at h
      have ihh := ih item h
      have hsame : lastKeptIdx ctg k ((c, idx) :: rest) = lastKeptIdx ctg k rest := by
        rcases hrest : lastKeptIdx ctg k rest with _ | j <;>
          simp only [lastKeptIdx, hrest]
        rw [if_neg (fun hh => hkeep hh.2)]
      rw [hsame]
      exact ihh

/-- A key that is not kept has no kept occurrence. -/
theorem lastKeptIdx_none_of_not_kept (ctg : Option PyStr) (k : PyStr) (cols : ColIndex)
    (h : keepsColumn ctg k = false) : lastKeptIdx ctg k cols = none := by
  induction cols with
  | nil => rfl
  | cons p rest ih =>
    obtain ⟨c, idx⟩ := p
    simp only [lastKeptIdx, ih]
    rw [if_neg]
    rintro ⟨rfl, hkeep⟩
    rw [h] at hkeep
    cases hkeep

/-- A kept column that occurs in the dictionary has a kept occurrence. -/
theorem lastKeptIdx_isSome_of_mem (ctg : Option PyStr) (k : PyStr) (cols : ColIndex)
    (i : Nat) (hmem : (k, i) ∈ cols) (h : keepsColumn ctg k = true) :
    (lastKeptIdx ctg k cols).isSome := by
  induction cols with
  | nil => cases hmem
  | cons p rest ih =>
    obtain ⟨c, idx⟩ := p
    rcases hrest : lastKeptIdx ctg k rest with _ | j
    · rcases List.mem_cons.mp hmem with heq | hmem'
      · cases heq
        simp [lastKeptIdx, hrest, h]
      · have := ih hmem'
        rw [hrest] at this
        cases this
    · simp only [lastKeptIdx, hrest]
      rfl

/-- `keepsColumn`, spelled as the claim spells it. -/
theorem keepsColumn_iff (ctg : Option PyStr) (c : PyStr) :
    keepsColumn ctg c = true
      ↔ (some c = ctg ∨ (startsWithChar '_' c = false ∧ c ≠ pstr "DUMMY")) := by
  unfold keepsColumn
  by_cases h1 : some c = ctg
  · rw [← h1]
    simp
  · by_cases h2 : startsWithChar '_' c <;> by_cases h3 : c = pstr "DUMMY" <;>
      simp [h1, h2, h3]

/-- A key absent from the column dictionary has no kept occurrence. -/
theorem lastKeptIdx_none_of_not_mem (ctg : Option PyStr) (k : PyStr) (cols : ColIndex)
    (h : ∀ p ∈ cols, p.1 ≠ k) : lastKeptIdx ctg k cols = none := by
  induction cols with
  | nil => rfl
  | cons p rest ih =>
    obtain ⟨c, idx⟩ := p
    simp only [lastKeptIdx, ih fun q hq => h q (List.mem_cons_of_mem _ hq)]
    rw [if_neg]
    rintro ⟨rfl, -⟩
    exact h (c, idx) (by simp) rfl

/-- A column dropped by the filter starts with `_` or is `DUMMY`. -/
theorem internal_of_not_kept (ctg : Option PyStr) (c : PyStr)
    (h : keepsColumn ctg c = false) :
    startsWithChar '_' c = true ∨ c = pstr "DUMMY" := by
  by_cases hD : c = pstr "DUMMY"
  · exact Or.inr hD
  · by_cases hS : startsWithChar '_' c = true
    · exact Or.inl hS
    · have hk : keepsColumn ctg c = true :=
        (keepsColumn_iff ctg c).mpr (Or.inr ⟨by simpa using hS, hD⟩)
      rw [h] at hk
      cases hk

/-- The seed dict has no key starting with `_` and no `DUMMY` key. -/
theorem dictGet_seed_none (cv : Option PyStr) (nm c : PyStr)
    (h : startsWithChar '_' c = true ∨ c = pstr "DUMMY") :
    dictGet c (seedRecord cv nm) = none := by
  have h1 : pstr "CONTENT_VERSION" ≠ c := by
    rintro rfl
    rcases h with h | h <;> exact absurd h (by decide)
  have h2 : pstr "SAPMON_VERSION" ≠ c := by
    rintro rfl
    rcases h with h | h <;> exact absurd h (by decide)
  have h3 : pstr "PROVIDER_INSTANCE" ≠ c := by
    rintro rfl
    rcases h with h | h <;> exact absurd h (by decide)
  simp only [seedRecord, dictGet, if_neg h1, if_neg h2, if_neg h3]

/-- The seed value under `CONTENT_VERSION`. -/
theorem dictGet_seed_contentVersion (cv : Option PyStr) (nm : PyStr) :
    dictGet (pstr "CONTENT_VERSION") (seedRecord cv nm)
      = some (contentVersionCell cv) := by
  cases cv <;> rfl

/-- The seed value under `SAPMON_VERSION`. -/
theorem dictGet_seed_sapmonVersion (cv : Option PyStr) (nm : PyStr) :
    dictGet (pstr "SAPMON_VERSION") (seedRecord cv nm) = some (Cell.s PAYLOAD_VERSION) := by
  cases cv <;> rfl

/-- The seed value under `PROVIDER_INSTANCE`. -/
theorem dictGet_seed_providerInstance (cv : Option PyStr) (nm : PyStr) :
    dictGet (pstr "PROVIDER_INSTANCE") (seedRecord cv nm) = some (Cell.s nm) := by
  cases cv <;> rfl

/-- `buildLogData` produces one record per row, each built by `addColumns`
from the seed. -/
theorem buildLogData_spec (cv : Option PyStr) (nm : PyStr) (ctg : Option PyStr)
    (ci : ColIndex) (rows : List (List Cell)) (recs : List LogRecord)
    (h : buildLogData cv nm ctg ci rows = some recs) :
    recs.length = rows.length
    ∧ ∀ rec ∈ recs, ∃ r ∈ rows, addColumns ctg r ci (seedRecord cv nm) = some rec := by
  induction rows generalizing recs with
  | nil =>
    cases h
    exact ⟨rfl, fun rec hrec => by cases hrec⟩
  | cons r rs ih =>
    simp only [buildLogData] at h
    rcases ha : addColumns ctg r ci (seedRecord cv nm) with _ | item
    · rw [ha] at h
      cases h
    rw [ha, Option.some_bind] at h
    rcases hb : buildLogData cv nm ctg ci rs with _ | rest
    · rw [hb] at h
      cases h
    rw [hb, Option.some_bind] at h
    cases h
    obtain ⟨ihlen, ihmem⟩ := ih rest hb
    constructor
    · simp [ihlen]
    · intro rec hrec
      rcases List.mem_cons.mp hrec with rfl | hrec'
      · exact ⟨r, by simp, ha⟩
      · obtain ⟨r', hr', har'⟩ := ihmem rec hrec'
        exact ⟨r', by simp [hr'], har'⟩

/-- Claim C6 (amended): each record the generic `generateJsonString` emits
is seeded with the three fields `CONTENT_VERSION`, `SAPMON_VERSION` (the
agent's build version, `PAYLOAD_VERSION = "0.14.0"`) and
`PROVIDER_INSTANCE` (the owning instance's name) — there is no `METADATA`
seed — and a result column appears in the record exactly when its name
does not start with `_` and is not `DUMMY`, except that the column mapped
to `TimeGenerated` is always copied; an absent or empty last result yields
the well-formed empty record list (serialised `"[]"`). (The hypotheses
keep the seed names distinct from the column names, as every catalogue
query does.) -/
theorem generateJsonString_spec (cv : Option PyStr) (nm : PyStr) (ctg : Option PyStr)
    (ci : ColIndex) (rows : List (List Cell)) (recs : List LogRecord)
    (h : generateLogData cv nm ctg (some (ci, rows)) = some recs)
    (h1 : ∀ p ∈ ci, p.1 ≠ pstr "CONTENT_VERSION")
    (h2 : ∀ p ∈ ci, p.1 ≠ pstr "SAPMON_VERSION")
    (h3 : ∀ p ∈ ci, p.1 ≠ pstr "PROVIDER_INSTANCE") :
    recs.length = rows.length
    ∧ (∀ rec ∈ recs,
        dictGet (pstr "CONTENT_VERSION") rec = some (contentVersionCell cv)
        ∧ dictGet (pstr "SAPMON_VERSION") rec = some (Cell.s PAYLOAD_VERSION)
        ∧ dictGet (pstr "PROVIDER_INSTANCE") rec = some (Cell.s nm))
    ∧ (∀ rec ∈ recs, ∀ p ∈ ci,
        ((dictGet p.1 rec).isSome = true
          ↔ (some p.1 = ctg ∨ (startsWithChar '_' p.1 = false ∧ p.1 ≠ pstr "DUMMY"))))
    ∧ generateLogData cv nm ctg none = some []
    ∧ generateLogData cv nm ctg (some (ci, [])) = some [] := by
  have hb : buildLogData cv nm ctg ci rows = some recs := h
  obtain ⟨hlen, hmem⟩ := buildLogData_spec cv nm ctg ci rows recs hb
  refine ⟨hlen, ?_, ?_, rfl, rfl⟩
  · intro rec hrec
    obtain ⟨r, -, har⟩ := hmem rec hrec
    have hl := addColumns_lookup ctg r ci (seedRecord cv nm) rec har
    refine ⟨?_, ?_, ?_⟩
    · rw [(hl (pstr "CONTENT_VERSION")).1
        (lastKeptIdx_none_of_not_mem ctg _ ci h1), dictGet_seed_contentVersion]
    · rw [(hl (pstr "SAPMON_VERSION")).1
        (lastKeptIdx_none_of_not_mem ctg _ ci h2), dictGet_seed_sapmonVersion]
    · rw [(hl (pstr "PROVIDER_INSTANCE")).1
        (lastKeptIdx_none_of_not_mem ctg _ ci h3), dictGet_seed_providerInstance]
  · intro rec hrec p hp
    obtain ⟨r, -, har⟩ := hmem rec hrec
    have hl := addColumns_lookup ctg r ci (seedRecord cv nm) rec har
    by_cases hkeep : keepsColumn ctg p.1 = true
    · have hsome : (lastKeptIdx ctg p.1 ci).isSome := by
        refine lastKeptIdx_isSome_of_mem ctg p.1 ci p.2 ?_ hkeep
        simpa using hp
      obtain ⟨i, hi⟩ := Option.isSome_iff_exists.mp hsome
      obtain ⟨v, -, hv⟩ := (hl p.1).2 i hi
      simp only [hv, Option.isSome_some, true_iff]
      exact (keepsColumn_iff ctg p.1).mp hkeep
    · have hnone : dictGet p.1 rec = none := by
        rw [(hl p.1).1 (lastKeptIdx_none_of_not_kept ctg p.1 ci (by simpa using hkeep))]
        exact dictGet_seed_none cv nm p.1
          (internal_of_not_kept ctg p.1 (by simpa using hkeep))
      rw [hnone]
      simp only [Option.isSome_none, Bool.false_eq_true, false_iff]
      intro hc
      exact hkeep ((keepsColumn_iff ctg p.1).mpr hc)

/-- Claim C6 (witness): one row with an internal column, the
`TimeGenerated` column and a payload column: the three seed fields are
present, `_SERVER_UTC` (mapped to TimeGenerated) is copied, `_IGNORED` is
elided, `HOST` is copied. -/
theorem generateJsonString_witness :
    ∃ recs, generateLogData (some (pstr "1.0")) (pstr "myhana") (some (pstr "_SERVER_UTC"))
        (some ([(pstr "_SERVER_UTC", 0), (pstr "HOST", 1), (pstr "_IGNORED", 2)],
               [[Cell.t ⟨2020, 1, 1, 0, 0, 0, 0⟩, Cell.s (pstr "hdb01"), Cell.i 7]]))
        = some recs
      ∧ recs.length = 1
      ∧ (∀ rec ∈ recs,
          dictGet (pstr "SAPMON_VERSION") rec = some (Cell.s PAYLOAD_VERSION)
          ∧ dictGet (pstr "PROVIDER_INSTANCE") rec = some (Cell.s (pstr "myhana")))
      ∧ (∀ rec ∈ recs, (dictGet (pstr "_SERVER_UTC") rec).isSome = true
          ∧ (dictGet (pstr "_IGNORED") rec).isSome = false
          ∧ (dictGet (pstr "HOST") rec).isSome = true) := by
  have hrun : generateLogData (some (pstr "1.0")) (pstr "myhana") (some (pstr "_SERVER_UTC"))
      (some ([(pstr "_SERVER_UTC", 0), (pstr "HOST", 1), (pstr "_IGNORED", 2)],
             [[Cell.t ⟨2020, 1, 1, 0, 0, 0, 0⟩, Cell.s (pstr "hdb01"), Cell.i 7]]))
      = some [[(pstr "CONTENT_VERSION", Cell.s (pstr "1.0")),
               (pstr "SAPMON_VERSION", Cell.s PAYLOAD_VERSION),
               (pstr "PROVIDER_INSTANCE", Cell.s (pstr "myhana")),
               (pstr "_SERVER_UTC", Cell.t ⟨2020, 1, 1, 0, 0, 0, 0⟩),
               (pstr "HOST", Cell.s (pstr "hdb01"))]] := by decide
  have hspec := generateJsonString_spec _ _ _ _ _ _ hrun
    (by decide) (by decide) (by decide)
  refine ⟨_, hrun, hspec.1, ?_, ?_⟩
  · intro rec hrec
    exact ⟨(hspec.2.1 rec hrec).2.1, (hspec.2.1 rec hrec).2.2⟩
  · intro rec hrec
    refine ⟨?_, ?_, ?_⟩
    · exact (hspec.2.2.1 rec hrec (pstr "_SERVER_UTC", 0) (by decide)).mpr (by decide)
    · have := hspec.2.2.1 rec hrec (pstr "_IGNORED", 2) (by decide)
      rcases hval : (dictGet (pstr "_IGNORED") rec).isSome with _ | _
      · rfl
      · exact absurd (this.mp hval) (by decide)
    · exact (hspec.2.2.1 rec hrec (pstr "HOST", 1) (by decide)).mpr (by decide)

/-- Claim C6 (counterexample): the generic `generateJsonString` on a
one-row result emits exactly one record, and that record has no `METADATA`
field — the claimed fourth seed field does not exist (only the HANA
override names one, reading a `providerInstance.metadata` attribute that
no code initialises). -/
theorem generateJsonString_no_metadata_cex :
    (generateLogData (some (pstr "1.0")) (pstr "myhana") (some (pstr "_SERVER_UTC"))
        (some ([(pstr "_SERVER_UTC", 0), (pstr "HOST", 1)],
               [[Cell.t ⟨2020, 1, 1, 0, 0, 0, 0⟩, Cell.s (pstr "hdb01")]]))).map
        (fun recs => recs.map (dictGet (pstr "METADATA")))
      = some [none] := by
  decide

/-- Claim C7: the headers `AzureLogAnalytics.ingest` sends are exactly the
claim's: `Authorization` is `SharedKey <workspaceId>:<mac>` with `<mac>`
the base64 HMAC-SHA256 (keyed with the base64-decoded shared key) of
exactly `POST\n<len(jsonData)>\napplication/json\nx-ms-date:<ts>\n/api/logs`,
`<ts>` the current UTC time rendered `"%a, %d %b %Y %H:%M:%S GMT"`, and
`Log-Type`, `x-ms-date` and `time-generated-field` carry the custom log
name, the same timestamp and the TimeGenerated column. -/
theorem ingest_headers_spec (workspaceId sharedKey customLog jsonData colTimeGenerated : PyStr)
    (now : Dt) :
    ingestHeaders workspaceId sharedKey customLog jsonData colTimeGenerated now
      = (claimAuthorization workspaceId sharedKey jsonData now).map (fun auth =>
          [(pstr "content-type", pstr "application/json"),
           (pstr "Authorization", auth),
           (pstr "Log-Type", customLog),
           (pstr "x-ms-date", strftimeLogAnalytics now),
           (pstr "time-generated-field", colTimeGenerated)])
    ∧ ∀ headers, ingestHeaders workspaceId sharedKey customLog jsonData colTimeGenerated now
        = some headers →
        headerGet (pstr "Log-Type") headers = some customLog
        ∧ headerGet (pstr "x-ms-date") headers = some (strftimeLogAnalytics now)
        ∧ headerGet (pstr "time-generated-field") headers = some colTimeGenerated
        ∧ headerGet (pstr "Authorization") headers
            = claimAuthorization workspaceId sharedKey jsonData now := by
  constructor
  · unfold ingestHeaders buildSig claimAuthorization
    cases b64decode sharedKey <;> rfl
  · intro headers hh
    unfold ingestHeaders buildSig at hh
    rcases hk : b64decode sharedKey with _ | key
    · rw [hk] at hh
      cases hh
    · rw [hk] at hh
      simp only [Option.map_some'] at hh
      cases hh
      unfold claimAuthorization
      rw [hk]
      exact ⟨rfl, rfl, rfl, rfl⟩

/-- `strLe` is total. -/
theorem strLe_total (a : PyStr) : ∀ b : PyStr, strLe a b = true ∨ strLe b a = true := by
  induction a with
  | nil => intro b; left; rfl
  | cons x xs ih =>
    intro b
    cases b with
    | nil => right; rfl
    | cons y ys =>
      rcases Nat.lt_trichotomy x.toNat y.toNat with h | h | h
      · left; simp [strLe, h]
      · rcases ih ys with h' | h'
        · left; simp [strLe, h, h']
        · right; simp [strLe, h, h']
      · right; simp [strLe, h]

/-- `strLe` is transitive. -/
theorem strLe_trans : ∀ (a b c : PyStr), strLe a b = true → strLe b c = true → strLe a c = true
  | [], _, _, _, _ => rfl
  | _ :: _, [], _, hab, _ => by simp [strLe] at hab
  | _ :: _, _ :: _, [], _, hbc => by simp [strLe] at hbc
  | x :: xs, y :: ys, z :: zs, hab, hbc => by
    simp only [strLe] at hab hbc ⊢
    by_cases h1 : x.toNat < y.toNat
    · by_cases h2 : y.toNat < z.toNat
      · rw [if_pos (by omega)]
      · by_cases h2e : y.toNat = z.toNat
        · rw [if_pos (by omega)]
        · rw [if_neg h2, if_neg h2e] at hbc
          cases hbc
    · by_cases h1e : x.toNat = y.toNat
      · rw [if_neg h1, if_pos h1e] at hab
        by_cases h2 : y.toNat < z.toNat
        · rw [if_pos (by omega)]
        · by_cases h2e : y.toNat = z.toNat
          · rw [if_neg h2, if_pos h2e] at hbc
            rw [if_neg (by omega), if_pos (by omega)]
            exact strLe_trans xs ys zs hab hbc
          · rw [if_neg h2, if_neg h2e] at hbc
            cases hbc
      · rw [if_neg h1, if_neg h1e] at hab
        cases hab

/-- Inserting permutes. -/
theorem insertStr_perm (x : PyStr) (l : List PyStr) : (insertStr x l).Perm (x :: l) := by
  induction l with
  | nil => exact List.Perm.refl _
  | cons y ys ih =>
    unfold insertStr
    by_cases h : strLe x y = true
    · rw [if_pos h]
    · rw [if_neg h]
      exact (ih.cons y).trans (List.Perm.swap x y ys)

/-- `sortStrs` permutes its input. -/
theorem sortStrs_perm (l : List PyStr) : (sortStrs l).Perm l := by
  induction l with
  | nil => exact List.Perm.refl _
  | cons x xs ih => exact (insertStr_perm x (sortStrs xs)).trans (ih.cons x)

/-- Inserting into a sorted list keeps it sorted. -/
theorem insertStr_pairwise (x : PyStr) (l : List PyStr)
    (hl : List.Pairwise (fun a b => strLe a b = true) l) :
    List.Pairwise (fun a b => strLe a b = true) (insertStr x l) := by
  induction l with
  | nil => simp [insertStr]
  | cons y ys ih =>
    unfold insertStr
    by_cases h : strLe x y = true
    · rw [if_pos h]
      refine List.Pairwise.cons ?_ hl
      intro b hb
      rcases List.mem_cons.mp hb with rfl | hb'
      · exact h
      · exact strLe_trans x y b h (List.rel_of_pairwise_cons hl hb')
    · rw [if_neg h]
      have hyx : strLe y x = true := (strLe_total x y).resolve_left h
      refine List.Pairwise.cons ?_ (ih hl.of_cons)
      intro b hb
      have hb' : b ∈ x :: ys := (insertStr_perm x ys).mem_iff.mp hb
      rcases List.mem_cons.mp hb' with rfl | hb''
      · exact hyx
      · exact List.rel_of_pairwise_cons hl hb''

/-- `sortStrs` sorts. -/
theorem sortStrs_pairwise (l : List PyStr) :
    List.Pairwise (fun a b => strLe a b = true) (sortStrs l) := by
  induction l with
  | nil => exact List.Pairwise.nil
  | cons x xs ih => exact insertStr_pairwise x (sortStrs xs) ih

/-- A known "down" error is not an "up" attempt. -/
theorem upAttempt_false_of_downErr (o : ProbeOutcome) (h : downErrAttempt o = true) :
    upAttempt o = false := by
  cases o with
  | conn b e => simp [downErrAttempt] at h
  | err t e =>
    simp only [downErrAttempt, Bool.and_eq_true, Bool.not_eq_true'] at h
    simpa [upAttempt] using h.1

/-- Claim C8: with a stored host config, `_actionProbeSqlConnection` probes
the hosts in sorted order (the probed sequence is a sorted permutation of
the stored hosts), produces exactly one row
`[localUtc, host, success, latencyMs]` per host with `_LOCAL_UTC` as the
TimeGenerated column, records a host as up (`success = true`, a
non-negative latency) whenever its SQL-port or nameserver-port attempt
connects or raises an error whose text contains `89008` or
`socket closed`, and as down (`success = false`, `latencyMs = null`) when
both attempts raise errors containing one of `89001`,
`cannot resolve host name`, `89006`, `connection refused`,
`timeout expired` (and no up marker). -/
theorem actionProbeSqlConnection_spec (env : ProbeEnv) (portSQL : Nat) (hosts : List PyStr)
    (ctg : PyStr) (ci : ColIndex) (rows : List (List Cell))
    (h : actionProbeSqlConnection env portSQL (some hosts) = some (ctg, ci, rows)) :
    ctg = pstr "_LOCAL_UTC"
    ∧ ci = probeColIndex
    ∧ rows = (sortStrs hosts).map (probeRow env portSQL)
    ∧ (sortStrs hosts).Perm hosts
    ∧ List.Pairwise (fun a b => strLe a b = true) (sortStrs hosts)
    ∧ (∀ host, (upAttempt (env.outcome host portSQL)
          || upAttempt (env.outcome host (nameserverPort portSQL))) = true →
        ∃ l : Nat, probeRow env portSQL host
          = [Cell.t (env.utcnow host), Cell.s host, Cell.b true, Cell.i (Int.ofNat l)])
    ∧ (∀ host, downErrAttempt (env.outcome host portSQL) = true →
        downErrAttempt (env.outcome host (nameserverPort portSQL)) = true →
        probeRow env portSQL host
          = [Cell.t (env.utcnow host), Cell.s host, Cell.b false, Cell.null]) := by
  simp only [actionProbeSqlConnection, Option.some.injEq, Prod.mk.injEq] at h
  obtain ⟨rfl, rfl, rfl⟩ := h
  refine ⟨rfl, rfl, rfl, sortStrs_perm hosts, sortStrs_pairwise hosts, ?_, ?_⟩
  · intro host hup
    by_cases h1 : upAttempt (env.outcome host portSQL) = true
    · exact ⟨attemptElapsed (env.outcome host portSQL), by simp [probeRow, probeHost, h1]⟩
    · have h2 : upAttempt (env.outcome host (nameserverPort portSQL)) = true := by
        rcases Bool.or_eq_true_iff.mp hup with hc | hc
        · exact absurd hc h1
        · exact hc
      exact ⟨attemptElapsed (env.outcome host (nameserverPort portSQL)),
        by simp [probeRow, probeHost, h1, h2]⟩
  · intro host hd1 hd2
    simp [probeRow, probeHost, upAttempt_false_of_downErr _ hd1,
      upAttempt_false_of_downErr _ hd2]

/-- Claim C8 (witness): probing the stored hosts `[hdb03, hdb01]` with SQL
port 30015 in the concrete environment: the probed order is sorted, `hdb01`
(stand-by error `89008`) is recorded up with a latency, `hdb03` (connection
refused on both ports) is recorded down with a null latency. -/
theorem actionProbeSqlConnection_witness :
    actionProbeSqlConnection probeEnvExample 30015 (some [pstr "hdb03", pstr "hdb01"])
        = some (pstr "_LOCAL_UTC", probeColIndex,
            (sortStrs [pstr "hdb03", pstr "hdb01"]).map (probeRow probeEnvExample 30015))
    ∧ (sortStrs [pstr "hdb03", pstr "hdb01"]).Perm [pstr "hdb03", pstr "hdb01"]
    ∧ (∃ l : Nat, probeRow probeEnvExample 30015 (pstr "hdb01")
        = [Cell.t probeDtExample, Cell.s (pstr "hdb01"), Cell.b true, Cell.i (Int.ofNat l)])
    ∧ probeRow probeEnvExample 30015 (pstr "hdb03")
        = [Cell.t probeDtExample, Cell.s (pstr "hdb03"), Cell.b false, Cell.null] := by
  have h := actionProbeSqlConnection_spec probeEnvExample 30015 [pstr "hdb03", pstr "hdb01"]
    _ _ _ rfl
  exact ⟨rfl, h.2.2.2.1,
    h.2.2.2.2.2.1 (pstr "hdb01") (by decide),
    h.2.2.2.2.2.2 (pstr "hdb03") (by decide) (by decide)⟩

/-- Claim C9 (counterexample): a failed fetch (`promData = None`, modelled
with the parser yielding no families) produces exactly one record, the
synthetic `up` sample with value 0 — there is no `sapmon` record; the
source appends no such sample. -/
theorem convertResultIntoJson_no_sapmon_cex :
    (convertResultIntoJson none (some defaultExcludeMatch) (fun _ => [])
        ⟨pstr "sap1.corp:9100", [], pstr "cid-1", 0, fun _ => pstr "1970-01-01T00:00:00+00:00Z"⟩
        none).map (fun r => (r.name, r.value))
      = [(pstr "up", 0)] := by
  decide

/-- Claim C9 (amended): with the default exclude regex and no `sapmon`
meta-sample (the source emits none), `convertResultIntoJson` keeps a
family exactly when `includePrefixes` is given and matches its name, or no
`includePrefixes` is given and the name starts with none of `go_`,
`promhttp_`, `process_`; each kept sample yields one record; all records
carry the fetch's `correlation_id` and the URL's netloc as `instance`; and
a synthetic `up` record with value 1 on a truthy fetch result and 0
otherwise is appended. -/
theorem convertResultIntoJson_spec (includeMatch : Option (PyStr → Bool))
    (parser : PyStr → List MetricFamily) (ctx : PromCtx) (promData : Option PyStr) :
    convertResultIntoJson includeMatch (some defaultExcludeMatch) parser ctx promData
      = ((match promData with | none => [] | some text => parser text).filter
            (fun f : MetricFamily =>
              match includeMatch with
              | some m => m f.name
              | none => !((pstr "go_").isPrefixOf f.name || (pstr "promhttp_").isPrefixOf f.name
                  || (pstr "process_").isPrefixOf f.name))).flatMap
            (fun f => f.samples.map (prometheusSample2Dict ctx))
          ++ [prometheusSample2Dict ctx ⟨pstr "up", [],
                if promDataTruthy promData then 1 else 0, none⟩]
    ∧ (∀ r ∈ convertResultIntoJson includeMatch (some defaultExcludeMatch) parser ctx promData,
        r.correlationId = ctx.correlationId ∧ r.instanceName = ctx.instanceName) := by
  have hfe : filterPrometheusMetric includeMatch (some defaultExcludeMatch)
      = fun f : MetricFamily => match includeMatch with
          | some m => m f.name
          | none => !((pstr "go_").isPrefixOf f.name || (pstr "promhttp_").isPrefixOf f.name
              || (pstr "process_").isPrefixOf f.name) := by
    funext f
    cases includeMatch <;> rfl
  constructor
  · unfold convertResultIntoJson
    rw [hfe]
  · intro r hr
    unfold convertResultIntoJson at hr
    rcases List.mem_append.mp hr with hr' | hr'
    · obtain ⟨f, -, hf⟩ := List.mem_flatMap.mp hr'
      obtain ⟨s, -, rfl⟩ := List.mem_map.mp hf
      exact ⟨rfl, rfl⟩
    · rw [List.mem_singleton.mp hr']
      exact ⟨rfl, rfl⟩

/-- Claim C9 (witness for the amended claim): the spec's happy-path
exposition — `ha_cluster_quorate 1` and `go_gc_duration_seconds 0.01` —
with no include list: `go_*` is suppressed, the output is the kept record
plus `up = 1`, all carrying the same correlation id and instance. -/
theorem convertResultIntoJson_witness :
    (convertResultIntoJson none (some defaultExcludeMatch)
        (fun _ => [⟨pstr "ha_cluster_quorate", [⟨pstr "ha_cluster_quorate", [], 1, none⟩]⟩,
                   ⟨pstr "go_gc_duration_seconds", [⟨pstr "go_gc_duration_seconds", [], 0, none⟩]⟩])
        ⟨pstr "sap1.corp:9100", [], pstr "cid-1", 5, fun _ => pstr "T"⟩
        (some (pstr "ha_cluster_quorate 1\ngo_gc_duration_seconds 0.01"))).map
        (fun r => (r.name, r.value, r.correlationId, r.instanceName))
      = [(pstr "ha_cluster_quorate", 1, pstr "cid-1", pstr "sap1.corp:9100"),
         (pstr "up", 1, pstr "cid-1", pstr "sap1.corp:9100")] := by
  have h := (convertResultIntoJson_spec none
    (fun _ => [⟨pstr "ha_cluster_quorate", [⟨pstr "ha_cluster_quorate", [], 1, none⟩]⟩,
               ⟨pstr "go_gc_duration_seconds", [⟨pstr "go_gc_duration_seconds", [], 0, none⟩]⟩])
    ⟨pstr "sap1.corp:9100", [], pstr "cid-1", 5, fun _ => pstr "T"⟩
    (some (pstr "ha_cluster_quorate 1\ngo_gc_duration_seconds 0.01"))).1
  rw [h]
  decide

/-- The fold of `loadConfig` and the claim's secret-by-secret
characterisation of the instance list. -/
theorem loadConfig_foldl_instances (available : List PyStr)
    (secrets : List (PyStr × Option JsonProps)) :
    ∀ acc, (secrets.foldl (loadConfigStep available) acc).instances
      = acc.instances ++ claimInstancesOf available secrets := by
  induction secrets with
  | nil => intro acc; simp [claimInstancesOf]
  | cons s rest ih =>
    intro acc
    rw [List.foldl_cons, ih]
    unfold claimInstancesOf
    rw [List.filterMap_cons]
    rcases s with ⟨name, _ | props⟩
    · simp [loadConfigStep, claimInstancesOf]
    · by_cases hg : name = pstr "global"
      · simp [loadConfigStep, claimInstancesOf, hg]
      · by_cases hlen : (splitOnChar '-' name).length = 2
        · by_cases hav : (splitOnChar '-' name).headI ∈ available
          · simp [loadConfigStep, claimInstancesOf, hg, hlen, hav]
          · simp [loadConfigStep, claimInstancesOf, hg, hlen, hav]
        · simp [loadConfigStep, claimInstancesOf, hg, hlen]

/-- One `loadConfig` step never drops an already-traced error. -/
theorem loadConfigStep_errors_mono (available : List PyStr) (acc : LoadConfigResult)
    (s : PyStr × Option JsonProps) (e : ConfigTraceError) (he : e ∈ acc.errors) :
    e ∈ (loadConfigStep available acc s).errors := by
  rcases s with ⟨name, _ | props⟩
  · simp [loadConfigStep, he]
  · by_cases hg : name = pstr "global"
    · simp [loadConfigStep, hg, he]
    · by_cases hlen : (splitOnChar '-' name).length ≠ 2
      · simp [loadConfigStep, hg, hlen, he]
      · by_cases hav : (splitOnChar '-' name).headI ∈ available
        · simp [loadConfigStep, hg, hlen, hav, he]
        · simp [loadConfigStep, hg, hlen, hav, he]

/-- The fold of `loadConfig` never drops an already-traced error. -/
theorem loadConfig_foldl_errors_mono (available : List PyStr)
    (secrets : List (PyStr × Option JsonProps)) :
    ∀ acc, ∀ e ∈ acc.errors, e ∈ (secrets.foldl (loadConfigStep available) acc).errors := by
  induction secrets with
  | nil => intro acc e he; exact he
  | cons s rest ih =>
    intro acc e he
    rw [List.foldl_cons]
    exact ih _ e (loadConfigStep_errors_mono available acc s e he)

/-- A well-formed secret whose name has more or fewer than one dash leaves
an `invalid secret name` error trace. -/
theorem loadConfig_foldl_invalidName (available : List PyStr)
    (secrets : List (PyStr × Option JsonProps)) :
    ∀ acc, ∀ s ∈ secrets, ∀ props : JsonProps, s.2 = some props → s.1 ≠ pstr "global" →
      (splitOnChar '-' s.1).length ≠ 2 →
      ConfigTraceError.invalidSecretName s.1
        ∈ (secrets.foldl (loadConfigStep available) acc).errors := by
  induction secrets with
  | nil => intro acc s hs; cases hs
  | cons s0 rest ih =>
    intro acc s hs props hp hg hlen
    rcases List.mem_cons.mp hs with rfl | hs'
    · rw [List.foldl_cons]
      apply loadConfig_foldl_errors_mono
      rcases s with ⟨name, val⟩
      cases hp
      simp only [loadConfigStep]
      simp only at hg hlen
      simp [hg, hlen]
    · rw [List.foldl_cons]
      exact ih _ s hs' props hp hg hlen

/-- Claim C10 (amended): a secret (other than `global`, with valid JSON)
contributes a provider instance exactly when its name splits on `-` into
two parts whose first is a registered provider type; a secret whose name
has more than one `-` is skipped with an `invalid secret name` error trace
— the load neither aborts nor drops the remaining secrets. -/
theorem loadConfig_spec (available : List PyStr)
    (secrets : List (PyStr × Option JsonProps)) :
    (loadConfig available secrets).instances = claimInstancesOf available secrets
    ∧ ∀ s ∈ secrets, ∀ props : JsonProps, s.2 = some props → s.1 ≠ pstr "global" →
        (splitOnChar '-' s.1).length ≠ 2 →
        ConfigTraceError.invalidSecretName s.1 ∈ (loadConfig available secrets).errors :=
  ⟨by simpa using loadConfig_foldl_instances available secrets ⟨none, [], []⟩,
   fun s hs props hp hg hlen =>
     loadConfig_foldl_invalidName available secrets ⟨none, [], []⟩ s hs props hp hg hlen⟩

/-- Claim C10 (witness for the amended claim): a concrete secret list with
a two-dash name: `saphana-db1` is loaded, `saphana-my-instance` is skipped
and its error trace recorded. -/
theorem loadConfig_witness :
    (loadConfig [pstr "saphana"]
        [(pstr "saphana-my-instance", some (pstr "P1")),
         (pstr "saphana-db1", some (pstr "P2"))]).instances
      = [⟨pstr "saphana", pstr "db1", pstr "P2"⟩]
    ∧ ConfigTraceError.invalidSecretName (pstr "saphana-my-instance")
        ∈ (loadConfig [pstr "saphana"]
            [(pstr "saphana-my-instance", some (pstr "P1")),
             (pstr "saphana-db1", some (pstr "P2"))]).errors := by
  have h := loadConfig_spec [pstr "saphana"]
    [(pstr "saphana-my-instance", some (pstr "P1")), (pstr "saphana-db1", some (pstr "P2"))]
  refine ⟨?_, ?_⟩
  · rw [h.1]
    decide
  · exact h.2 (pstr "saphana-my-instance", some (pstr "P1")) (by decide) (pstr "P1") rfl
      (by decide) (by decide)

/-- Claim C10 (counterexample): the multi-dash secret is not silently
skipped: `loadConfig` traces an `invalid secret name` error for it (while
still loading the remaining secrets). -/
theorem loadConfig_not_silent_cex :
    (loadConfig [pstr "saphana"]
        [(pstr "global", some (pstr "G")),
         (pstr "saphana-my-instance", some (pstr "P1")),
         (pstr "saphana-db1", some (pstr "P2"))]).errors
      = [ConfigTraceError.invalidSecretName (pstr "saphana-my-instance")]
    ∧ (loadConfig [pstr "saphana"]
        [(pstr "global", some (pstr "G")),
         (pstr "saphana-my-instance", some (pstr "P1")),
         (pstr "saphana-db1", some (pstr "P2"))]).instances
      = [⟨pstr "saphana", pstr "db1", pstr "P2"⟩] := by
  decide
